import Mathlib

/-!
Verification development for the Droste-effect projective-geometry and
recursive-compositing engine.

The definitions below are shallow embeddings of the program's functions:

* `src/droste/types.ts`: `computeHomography`, `solveLinearSystem`,
  `multiplyMatrix`, `invertMatrix`, `getMatrixPower2x2`;
* the canvas component (`DrosteCanvas`): `getQuadArea`, the loop-scale
  computation in `renderCanvas`, the export duration/frame-count/phase
  arithmetic in `generateGif`, the per-tick zoom update in the animation
  loop, and the grid-cell culling test.

Machine numbers are modelled by an arbitrary `LinearOrderedField` (exact
arithmetic) wherever the source only uses field operations and comparisons,
and by `ℝ` where the source uses `Math.sqrt` / `Math.log` / trigonometry.
For one safety property about NaN propagation an explicit IEEE-style
extended number type `JSNum` is used.
-/

namespace Droste

/-- A 2D point `{x, y}` (source: `Point` in `types.ts`). -/
structure Point (α : Type) where
  x : α
  y : α
deriving DecidableEq

/-- An ordered quadrilateral `p1..p4` (source: `Quad` in `types.ts`). -/
structure Quad (α : Type) where
  p1 : Point α
  p2 : Point α
  p3 : Point α
  p4 : Point α
deriving DecidableEq

/-- Playback direction (source: `AnimationDirection` in `types.ts`). -/
inductive AnimationDirection where
  | IN
  | OUT
  | STOP
deriving DecidableEq

variable {α : Type} [LinearOrderedField α]

/-- Area helper translated verbatim from `getQuadArea` in the canvas
component (`0.5 * Math.abs(p1.x*p2.y + p2.x*p3.y + p3.x*p4.y + p4.y*p1.x -
(p1.y*p2.x + p2.y*p3.x + p3.y*p4.x + p4.y*p1.x))`).  Note that the term
`p4.y*p1.x` occurs in both the positive and the negative sum. -/
def getQuadArea (p1 p2 p3 p4 : Point α) : α :=
  (1/2) * |p1.x*p2.y + p2.x*p3.y + p3.x*p4.y + p4.y*p1.x -
    (p1.y*p2.x + p2.y*p3.x + p3.y*p4.x + p4.y*p1.x)|

/-- Row-major 3x3 matrix product `c[i*3+j] = sum_k a[i*3+k]*b[k*3+j]`
(source: `multiplyMatrix` in `types.ts`). -/
def multiplyMatrix (a b : List α) : List α :=
  (List.range 9).map fun idx =>
    let i := idx / 3
    let j := idx % 3
    (List.range 3).foldl (fun sum k => sum + a.getD (i*3+k) 0 * b.getD (k*3+j) 0) 0

/-- The determinant expression computed inside `invertMatrix` in
`types.ts` (cofactor expansion along the first row). -/
def det3 (m : List α) : α :=
  let m00 := m.getD 0 0; let m01 := m.getD 1 0; let m02 := m.getD 2 0
  let m10 := m.getD 3 0; let m11 := m.getD 4 0; let m12 := m.getD 5 0
  let m20 := m.getD 6 0; let m21 := m.getD 7 0; let m22 := m.getD 8 0
  let b01 := m22 * m11 - m12 * m21
  let b11 := -m22 * m10 + m12 * m20
  let b21 := m21 * m10 - m11 * m20
  m00 * b01 + m01 * b11 + m02 * b21

/-- Closed-form cofactor inverse of a row-major 3x3 matrix; a zero
determinant yields the identity matrix (source: `invertMatrix` in
`types.ts`, where the guard is the JS falsiness test `if (!det)`). -/
def invertMatrix (m : List α) : List α :=
  let m00 := m.getD 0 0; let m01 := m.getD 1 0; let m02 := m.getD 2 0
  let m10 := m.getD 3 0; let m11 := m.getD 4 0; let m12 := m.getD 5 0
  let m20 := m.getD 6 0; let m21 := m.getD 7 0; let m22 := m.getD 8 0
  let b01 := m22 * m11 - m12 * m21
  let b11 := -m22 * m10 + m12 * m20
  let b21 := m21 * m10 - m11 * m20
  let det := m00 * b01 + m01 * b11 + m02 * b21
  if det = 0 then [1,0,0,0,1,0,0,0,1]
  else
    [ b01 / det,
      (-m22 * m01 + m02 * m21) / det,
      (m12 * m01 - m02 * m11) / det,
      b11 / det,
      (m22 * m00 - m02 * m20) / det,
      (-m12 * m00 + m02 * m10) / det,
      b21 / det,
      (-m21 * m00 + m01 * m20) / det,
      (m11 * m00 - m01 * m10) / det ]

/-- The singularity tolerance `1e-10` of `solveLinearSystem`. -/
def eps10 : α := 1 / 10^10

/-- Partial-pivot search of `solveLinearSystem`: starting from
`(i, |A[i][i]|)`, scan rows `k = i+1 .. n-1` and keep the first row whose
column-`i` entry has strictly larger magnitude. -/
def pivotScan (A : List (List α)) (i n : Nat) : Nat × α :=
  (List.range' (i+1) (n - (i+1))).foldl
    (fun mr k =>
      if |(A.getD k []).getD i 0| > mr.2 then (k, |(A.getD k []).getD i 0|) else mr)
    (i, |(A.getD i []).getD i 0|)

/-- Row swap of `solveLinearSystem`: rows `i` and `r` exchange their
entries in columns `k >= i` only (the source's swap loop starts at
`k = i`). -/
def swapRowsFrom (A : List (List α)) (i r : Nat) : List (List α) :=
  let Ri := A.getD i []
  let Rr := A.getD r []
  (A.set i (Ri.take i ++ Rr.drop i)).set r (Rr.take i ++ Ri.drop i)

/-- Elimination of `solveLinearSystem` below pivot row `i`: each row
`k > i` gets `c = -A[k][i]/A[i][i]`, entry `A[k][i]` is set to `0`,
entries `j > i` get `A[k][j] + c*A[i][j]`, and `B[k]` gets `B[k] + c*B[i]`. -/
def eliminateBelow (A : List (List α)) (B : List α) (i n : Nat) :
    List (List α) × List α :=
  let piv := A.getD i []
  let pd := piv.getD i 0
  let pb := B.getD i 0
  (((List.range n).map fun k =>
      if k ≤ i then A.getD k []
      else
        let row := A.getD k []
        let c := -(row.getD i 0) / pd
        (List.range n).map fun j =>
          if j < i then row.getD j 0
          else if j = i then 0
          else row.getD j 0 + c * piv.getD j 0),
   ((List.range n).map fun k =>
      if k ≤ i then B.getD k 0
      else B.getD k 0 + (-(((A.getD k []).getD i 0)) / pd) * pb))

/-- One column step of the forward phase of `solveLinearSystem`:
pivot search, singularity test (`maxEl < 1e-10` aborts the whole solve),
row swap, elimination. -/
def elimStep (n : Nat) (AB : List (List α) × List α) (i : Nat) :
    Option (List (List α) × List α) :=
  let mr := pivotScan AB.1 i n
  if mr.2 < eps10 then none
  else
    let A1 := swapRowsFrom AB.1 i mr.1
    let B1 := (AB.2.set i (AB.2.getD mr.1 0)).set mr.1 (AB.2.getD i 0)
    some (eliminateBelow A1 B1 i n)

/-- Forward elimination over all columns; `none` models the source's early
`return new Array(n).fill(0)` on a sub-tolerance pivot. -/
def forwardElim (n : Nat) (A : List (List α)) (B : List α) :
    Option (List (List α) × List α) :=
  (List.range n).foldlM (elimStep n) (A, B)

/-- Back substitution of `solveLinearSystem`:
`X[i] = (B[i] - sum_{j>i} A[i][j]*X[j]) / A[i][i]` for `i = n-1 .. 0`.
The accumulator holds `X[i+1], .., X[n-1]`. -/
def backSubstAux (A : List (List α)) (B : List α) : Nat → List α → List α
  | 0, acc => acc
  | i+1, acc =>
    let row := A.getD i []
    let s := (List.enumFrom (i+1) acc).foldl (fun t p => t + row.getD p.1 0 * p.2) 0
    backSubstAux A B i ((B.getD i 0 - s) / row.getD i 0 :: acc)

/-- Gaussian elimination with partial pivoting (source:
`solveLinearSystem` in `types.ts`); a numerically singular system (pivot
magnitude below `1e-10`) yields the all-zero vector. -/
def solveLinearSystem (A : List (List α)) (B : List α) : List α :=
  let n := B.length
  match forwardElim n A B with
  | none => List.replicate n 0
  | some AB => backSubstAux AB.1 AB.2 n []

/-- The augmented `systems` rows built by `computeHomography` in
`types.ts`, mapping the corners of a `[0,w] x [0,h]` rectangle to the
four points of `dst`. -/
def homographySystem (w h : α) (dst : Quad α) : List (List α) :=
  let x0 := dst.p1.x; let y0 := dst.p1.y
  let x1 := dst.p2.x; let y1 := dst.p2.y
  let x2 := dst.p3.x; let y2 := dst.p3.y
  let x3 := dst.p4.x; let y3 := dst.p4.y
  [ [0, 0, 1, 0, 0, 0, -0*x0, -0*x0, x0],
    [0, 0, 0, 0, 0, 1, -0*y0, -0*y0, y0],
    [w, 0, 1, 0, 0, 0, -w*x1, -0*x1, x1],
    [0, 0, 0, w, 0, 1, -w*y1, -0*y1, y1],
    [w, h, 1, 0, 0, 0, -w*x2, -h*x2, x2],
    [0, 0, 0, w, h, 1, -w*y2, -h*y2, y2],
    [0, h, 1, 0, 0, 0, -0*x3, -h*x3, x3],
    [0, 0, 0, 0, h, 1, -0*y3, -h*y3, y3] ]

/-- Coefficient matrix `A` sliced from the augmented system. -/
def homographyA (w h : α) (dst : Quad α) : List (List α) :=
  (homographySystem w h dst).map fun r => r.take 8

/-- Right-hand side `B` sliced from the augmented system. -/
def homographyB (w h : α) (dst : Quad α) : List α :=
  (homographySystem w h dst).map fun r => r.getD 8 0

/-- Homography solve (source: `computeHomography` in `types.ts`): solve
the 8x8 system and append the fixed ninth coefficient `1`.  The source's
`isNaN/isFinite` guard (which substitutes the identity) cannot fire in
exact field arithmetic, because every division performed by the solver is
by a pivot of magnitude at least `1e-10`; it is therefore omitted here. -/
def computeHomography (w h : α) (dst : Quad α) : List α :=
  solveLinearSystem (homographyA w h dst) (homographyB w h dst) ++ [1]

/-- One live-playback zoom tick (source: the `loop` callback of the canvas
component).  `0.5` is written `1/2`.  `limit` is the current loop scale;
the source reaches this code only with `direction ≠ STOP`. -/
def loopTick (constantSpeed : Bool) (direction : AnimationDirection)
    (speed dt limit z : α) : α :=
  if constantSpeed then
    let step := speed * dt * (1/2)
    if direction = AnimationDirection.IN then
      let z1 := z + step * (limit - 1)
      if z1 ≥ limit then 1 + (z1 - limit) else z1
    else
      let z1 := z - step * (limit - 1)
      if z1 < 1 then limit - (1 - z1) else z1
  else
    let step := 1 + speed * dt
    if direction = AnimationDirection.IN then
      let z1 := z * step
      if z1 ≥ limit then z1 / limit else z1
    else
      let z1 := z / step
      if z1 < 1 then z1 * limit else z1

/-- The culling rectangle (local-coordinate viewport) of `renderCanvas`. -/
structure CullRect (α : Type) where
  x : α
  y : α
  w : α
  h : α
deriving DecidableEq

/-- JS truthiness fallback for the tail `b || c` of the culling centre
expression, where a missing point contributes the falsy `NaN` via
`0 + undefined` and the last operand is returned unchanged. -/
def jsChain2 (v2 v3 : Option α) : Option α :=
  match v2 with
  | some x => if x ≠ 0 then some x else v3
  | none => v3

/-- JS evaluation of `p1?.c || 0 + p2?.c || 0 + p3?.c || 0`: because `+`
binds tighter than `||` this is `p1?.c || (0 + p2?.c) || (0 + p3?.c)` —
the first truthy coordinate, not a sum.  `none` models `NaN`. -/
def jsChain3 (v1 v2 v3 : Option α) : Option α :=
  match v1 with
  | some x => if x ≠ 0 then some x else jsChain2 v2 v3
  | none => jsChain2 v2 v3

/-- A comparison `o < b` that is false when `o` is `NaN` (`none`). -/
def optLt (o : Option α) (b : α) : Bool :=
  match o with
  | some v => decide (v < b)
  | none => false

/-- A comparison `o > b` that is false when `o` is `NaN` (`none`). -/
def optGt (o : Option α) (b : α) : Bool :=
  match o with
  | some v => decide (b < v)
  | none => false

/-- The grid-cell culling test of `renderCanvas` (the `continue` guard):
`cx` and `cy` are the JS values of
`(p1?.x || 0 + p2?.x || 0 + p3?.x || 0) / 3` (and likewise for `y`), and
the cell is skipped when the resulting centre is more than `5000` units
outside the culling rectangle. -/
def cellCulled (R : CullRect α) (p1 p2 p3 : Option (Point α)) : Bool :=
  let cx := (jsChain3 (p1.map Point.x) (p2.map Point.x) (p3.map Point.x)).map (· / 3)
  let cy := (jsChain3 (p1.map Point.y) (p2.map Point.y) (p3.map Point.y)).map (· / 3)
  optLt cx (R.x - 5000) || optGt cx (R.x + R.w + 5000) ||
    optLt cy (R.y - 5000) || optGt cy (R.y + R.h + 5000)

/-- A 2x2 matrix `{a, b, c, d}` as returned by `getMatrixPower2x2`. -/
structure Mat2 where
  a : ℝ
  b : ℝ
  c : ℝ
  d : ℝ

/-- Ordinary 2x2 matrix product of two `{a,b,c,d}` matrices
(row-major: `[[a,b],[c,d]]`). -/
noncomputable def mul2 (m n : Mat2) : Mat2 :=
  ⟨m.a * n.a + m.b * n.c, m.a * n.b + m.b * n.d,
   m.c * n.a + m.d * n.c, m.c * n.b + m.d * n.d⟩

/-- The float-comparison tolerance `1e-9` of `getMatrixPower2x2`. -/
noncomputable def EPS : ℝ := 1 / 10^9

/-- Fractional power `M^t` of a 2x2 matrix (source: `getMatrixPower2x2` in
`types.ts`), over exact reals: `Math.sqrt`, `Math.acos`, `Math.sin` and
`Math.pow` become `Real.sqrt`, `Real.arccos`, `Real.sin` and `Real.rpow`.
(The models differ from JS floats only off the float grid and where JS
produces `NaN`: `Real.sqrt` of a negative number is `0`, `x / 0 = 0`, and
`Real.rpow` of a negative base is defined; the claims stated about this
definition avoid or hypothesise away those regions, and the NaN behaviour
itself is treated by the separate `JSNum` model below.) -/
noncomputable def getMatrixPower2x2 (a b c d t : ℝ) : Mat2 :=
  let trace := a + d
  let det := a * d - b * c
  let delta := trace * trace - 4 * det
  if delta < -EPS then
    let r := Real.sqrt det
    let theta := Real.arccos (max (-1) (min 1 (trace / (2 * r))))
    let rt := r ^ t
    let sinTheta := Real.sin theta
    if |sinTheta| < EPS then ⟨1, 0, 0, 1⟩
    else
      let c1 := Real.sin ((1 - t) * theta) / sinTheta
      let c2 := Real.sin (t * theta) / sinTheta
      let f1 := rt * c1
      let f2 := rt * c2 / r
      ⟨f1 * 1 + f2 * a, f1 * 0 + f2 * b, f1 * 0 + f2 * c, f1 * 1 + f2 * d⟩
  else
    let sqrtDelta := Real.sqrt delta
    let l1 := (trace - sqrtDelta) / 2
    let l2 := (trace + sqrtDelta) / 2
    if |l1 - l2| < EPS then
      let lt1 := l1 ^ t
      let invL1 := 1 / l1
      let Ka := a * invL1 - 1
      let Kb := b * invL1
      let Kc := c * invL1
      let Kd := d * invL1 - 1
      ⟨lt1 * (1 + t * Ka), lt1 * (0 + t * Kb), lt1 * (0 + t * Kc), lt1 * (1 + t * Kd)⟩
    else
      let l1t := l1 ^ t
      let l2t := l2 ^ t
      let invDiff := 1 / (l2 - l1)
      let c1 := (l1t * l2 - l2t * l1) * invDiff
      let c2 := (l2t - l1t) * invDiff
      ⟨c1 + c2 * a, 0 + c2 * b, 0 + c2 * c, c1 + c2 * d⟩

/-- Loop scale computed each frame by `renderCanvas`:
`Math.sqrt(areaFull / Math.max(1, areaQuad))`. -/
noncomputable def loopScale (areaFull areaQuad : ℝ) : ℝ :=
  Real.sqrt (areaFull / max 1 areaQuad)

/-- Export duration in seconds (source: `generateGif`): `2/speed` for
constant speed, `log(max(1.1, scale))/speed` otherwise, clamped to
`[0.2, 10]`. -/
noncomputable def exportDuration (constantSpeed : Bool) (scale speed : ℝ) : ℝ :=
  let d := if constantSpeed then 2 / speed else Real.log (max 1.1 scale) / speed
  max 0.2 (min d 10)

/-- Export frame count (source: `generateGif`):
`Math.max(10, Math.floor(duration * 30))` at 30 frames per second. -/
noncomputable def exportTotalFrames (duration : ℝ) : ℤ :=
  max 10 ⌊duration * 30⌋

/-- Export inter-frame delay in milliseconds (source: `generateGif`):
`Math.floor(1000 / 30)`. -/
noncomputable def exportDelayMs : ℤ := ⌊(1000 : ℝ) / 30⌋

/-- Phase of export frame `i` of `total` (source: the render loop of
`generateGif`): normalized time `t = i/total`, remapped through
`log(1 + (scale-1)t)/log(scale)` in constant-speed mode, flipped to `1-p`
when the desired direction is `OUT`. -/
noncomputable def exportPhase (constantSpeed : Bool) (dirOut : Bool) (scale : ℝ)
    (i total : ℕ) : ℝ :=
  let t := (i : ℝ) / total
  let p := if constantSpeed then Real.log (1 + (scale - 1) * t) / Real.log scale else t
  if dirOut then 1 - p else p

/-- The axis-aligned rectangle `(0,0), (w,0), (w,h), (0,h)` as a `Quad`
(the destination quad of the rectangle-to-itself homography). -/
def rectQuad (w h : α) : Quad α := ⟨⟨0,0⟩,⟨w,0⟩,⟨w,h⟩,⟨0,h⟩⟩

/-- The homography system `A` of `rectQuad w h` with all `-0*x` products
evaluated (initial state of the forward elimination). -/
def rectA0 (w h : α) : List (List α) :=
  [[0,0,1,0,0,0,0,0],
   [0,0,0,0,0,1,0,0],
   [w,0,1,0,0,0,-(w*w),0],
   [0,0,0,w,0,1,0,0],
   [w,h,1,0,0,0,-(w*w),-(h*w)],
   [0,0,0,w,h,1,-(w*h),-(h*h)],
   [0,h,1,0,0,0,0,0],
   [0,0,0,0,h,1,0,-(h*h)]]

/-- Right-hand side `B` of `rectQuad w h` (initial state). -/
def rectB0 (w h : α) : List α := [0,0,w,0,w,h,0,h]

/-- Elimination state after column 0 (pivot row 2, swap, eliminate). -/
def rectA1 (w h : α) : List (List α) :=
  [[w,0,1,0,0,0,-(w*w),0],
   [0,0,0,0,0,1,0,0],
   [0,0,1,0,0,0,0,0],
   [0,0,0,w,0,1,0,0],
   [0,h,0,0,0,0,0,-(h*w)],
   [0,0,0,w,h,1,-(w*h),-(h*h)],
   [0,h,1,0,0,0,0,0],
   [0,0,0,0,h,1,0,-(h*h)]]

/-- Right-hand side after column 0. -/
def rectB1 (w h : α) : List α := [w,0,0,0,0,h,0,h]

/-- Elimination state after column 1 (pivot row 4, swap, eliminate). -/
def rectA2 (w h : α) : List (List α) :=
  [[w,0,1,0,0,0,-(w*w),0],
   [0,h,0,0,0,0,0,-(h*w)],
   [0,0,1,0,0,0,0,0],
   [0,0,0,w,0,1,0,0],
   [0,0,0,0,0,1,0,0],
   [0,0,0,w,h,1,-(w*h),-(h*h)],
   [0,0,1,0,0,0,0,h*w],
   [0,0,0,0,h,1,0,-(h*h)]]

/-- Right-hand side after column 1. -/
def rectB2 (w h : α) : List α := [w,0,0,0,0,h,0,h]

/-- Elimination state after column 2 (pivot row 2 itself). -/
def rectA3 (w h : α) : List (List α) :=
  [[w,0,1,0,0,0,-(w*w),0],
   [0,h,0,0,0,0,0,-(h*w)],
   [0,0,1,0,0,0,0,0],
   [0,0,0,w,0,1,0,0],
   [0,0,0,0,0,1,0,0],
   [0,0,0,w,h,1,-(w*h),-(h*h)],
   [0,0,0,0,0,0,0,h*w],
   [0,0,0,0,h,1,0,-(h*h)]]

/-- Right-hand side after column 2. -/
def rectB3 (w h : α) : List α := [w,0,0,0,0,h,0,h]

/-- Elimination state after column 3 (pivot row 3 itself). -/
def rectA4 (w h : α) : List (List α) :=
  [[w,0,1,0,0,0,-(w*w),0],
   [0,h,0,0,0,0,0,-(h*w)],
   [0,0,1,0,0,0,0,0],
   [0,0,0,w,0,1,0,0],
   [0,0,0,0,0,1,0,0],
   [0,0,0,0,h,0,-(w*h),-(h*h)],
   [0,0,0,0,0,0,0,h*w],
   [0,0,0,0,h,1,0,-(h*h)]]

/-- Right-hand side after column 3. -/
def rectB4 (w h : α) : List α := [w,0,0,0,0,h,0,h]

/-- Elimination state after column 4 (pivot row 5, swap, eliminate). -/
def rectA5 (w h : α) : List (List α) :=
  [[w,0,1,0,0,0,-(w*w),0],
   [0,h,0,0,0,0,0,-(h*w)],
   [0,0,1,0,0,0,0,0],
   [0,0,0,w,0,1,0,0],
   [0,0,0,0,h,0,-(w*h),-(h*h)],
   [0,0,0,0,0,1,0,0],
   [0,0,0,0,0,0,0,h*w],
   [0,0,0,0,0,1,w*h,0]]

/-- Right-hand side after column 4. -/
def rectB5 (w h : α) : List α := [w,0,0,0,h,0,0,0]

/-- Elimination state after column 5 (pivot row 5 itself). -/
def rectA6 (w h : α) : List (List α) :=
  [[w,0,1,0,0,0,-(w*w),0],
   [0,h,0,0,0,0,0,-(h*w)],
   [0,0,1,0,0,0,0,0],
   [0,0,0,w,0,1,0,0],
   [0,0,0,0,h,0,-(w*h),-(h*h)],
   [0,0,0,0,0,1,0,0],
   [0,0,0,0,0,0,0,h*w],
   [0,0,0,0,0,0,w*h,0]]

/-- Right-hand side after column 5. -/
def rectB6 (w h : α) : List α := [w,0,0,0,h,0,0,0]

/-- Elimination state after columns 6 and 7 (swap of rows 6 and 7; the
final triangular system). -/
def rectA7 (w h : α) : List (List α) :=
  [[w,0,1,0,0,0,-(w*w),0],
   [0,h,0,0,0,0,0,-(h*w)],
   [0,0,1,0,0,0,0,0],
   [0,0,0,w,0,1,0,0],
   [0,0,0,0,h,0,-(w*h),-(h*h)],
   [0,0,0,0,0,1,0,0],
   [0,0,0,0,0,0,w*h,0],
   [0,0,0,0,0,0,0,h*w]]

/-- Right-hand side after columns 6 and 7. -/
def rectB7 (w h : α) : List α := [w,0,0,0,h,0,0,0]

/-- Nondegeneracy precondition under which the three branches of
`getMatrixPower2x2` follow their exact formulas at the endpoints: either
the spiral branch applies and its `|sin theta| < eps` degenerate guard
does not fire, or the discriminant is nonnegative (matching JS, where a
negative discriminant inside `[-eps, 0)` would make `Math.sqrt` return
NaN) and the eigenvalue `l1` divided by in the repeated branch, if that
branch is taken, is nonzero. -/
def MatrixPowerRegular (a b c d : ℝ) : Prop :=
  ((a+d) * (a+d) - 4 * (a*d - b*c) < -EPS ∧
    EPS ≤ |Real.sin (Real.arccos (max (-1) (min 1 ((a+d) / (2 * Real.sqrt (a*d - b*c))))))|) ∨
  (0 ≤ (a+d) * (a+d) - 4 * (a*d - b*c) ∧
    (Real.sqrt ((a+d) * (a+d) - 4 * (a*d - b*c)) < EPS →
      (a+d) - Real.sqrt ((a+d) * (a+d) - 4 * (a*d - b*c)) ≠ 0))

/-- IEEE-754-style extended number modelling JS arithmetic special values
(finite, +Infinity, -Infinity, NaN; signed zero is not modelled). -/
inductive JSNum where
  | nan : JSNum
  | pinf : JSNum
  | ninf : JSNum
  | fin : ℝ → JSNum

/-- JS unary minus. -/
noncomputable def jsNeg : JSNum → JSNum
  | .nan => .nan
  | .pinf => .ninf
  | .ninf => .pinf
  | .fin x => .fin (-x)

/-- JS addition. -/
noncomputable def jsAdd : JSNum → JSNum → JSNum
  | .nan, _ => .nan
  | _, .nan => .nan
  | .pinf, .ninf => .nan
  | .ninf, .pinf => .nan
  | .pinf, _ => .pinf
  | _, .pinf => .pinf
  | .ninf, _ => .ninf
  | _, .ninf => .ninf
  | .fin x, .fin y => .fin (x + y)

/-- JS subtraction `x - y = x + (-y)`. -/
noncomputable def jsSub (x y : JSNum) : JSNum := jsAdd x (jsNeg y)

/-- JS multiplication; `0 * (+-Infinity) = NaN`. -/
noncomputable def jsMul : JSNum → JSNum → JSNum
  | .nan, _ => .nan
  | _, .nan => .nan
  | .pinf, .pinf => .pinf
  | .pinf, .ninf => .ninf
  | .ninf, .pinf => .ninf
  | .ninf, .ninf => .pinf
  | .pinf, .fin y => if y = 0 then .nan else if 0 < y then .pinf else .ninf
  | .fin x, .pinf => if x = 0 then .nan else if 0 < x then .pinf else .ninf
  | .ninf, .fin y => if y = 0 then .nan else if 0 < y then .ninf else .pinf
  | .fin x, .ninf => if x = 0 then .nan else if 0 < x then .ninf else .pinf
  | .fin x, .fin y => .fin (x * y)

/-- JS division; `x / 0` is a signed infinity for `x ≠ 0` and NaN for
`0 / 0` (the denominator is treated as `+0`). -/
noncomputable def jsDiv : JSNum → JSNum → JSNum
  | .nan, _ => .nan
  | _, .nan => .nan
  | .pinf, .pinf => .nan
  | .pinf, .ninf => .nan
  | .ninf, .pinf => .nan
  | .ninf, .ninf => .nan
  | .pinf, .fin y => if 0 ≤ y then .pinf else .ninf
  | .ninf, .fin y => if 0 ≤ y then .ninf else .pinf
  | .fin _, .pinf => .fin 0
  | .fin _, .ninf => .fin 0
  | .fin x, .fin y =>
    if y = 0 then (if x = 0 then .nan else if 0 < x then .pinf else .ninf)
    else .fin (x / y)

/-- JS `Math.abs`. -/
noncomputable def jsAbs : JSNum → JSNum
  | .nan => .nan
  | .pinf => .pinf
  | .ninf => .pinf
  | .fin x => .fin |x|

/-- JS `<` comparison: false whenever NaN is involved. -/
noncomputable def jsLtB : JSNum → JSNum → Bool
  | .nan, _ => false
  | _, .nan => false
  | .pinf, _ => false
  | .ninf, .ninf => false
  | .ninf, _ => true
  | .fin _, .pinf => true
  | .fin _, .ninf => false
  | .fin x, .fin y => decide (x < y)

/-- JS `Math.sqrt`: NaN on negative input. -/
noncomputable def jsSqrt : JSNum → JSNum
  | .nan => .nan
  | .pinf => .pinf
  | .ninf => .nan
  | .fin x => if 0 ≤ x then .fin (Real.sqrt x) else .nan

/-- JS `Math.sin`: NaN on non-finite input. -/
noncomputable def jsSin : JSNum → JSNum
  | .fin x => .fin (Real.sin x)
  | _ => .nan

/-- JS `Math.acos`: NaN outside `[-1, 1]`. -/
noncomputable def jsAcos : JSNum → JSNum
  | .fin x => if -1 ≤ x ∧ x ≤ 1 then .fin (Real.arccos x) else .nan
  | _ => .nan

/-- JS `Math.max` of two numbers (NaN-propagating). -/
noncomputable def jsMax : JSNum → JSNum → JSNum
  | .nan, _ => .nan
  | _, .nan => .nan
  | .pinf, _ => .pinf
  | _, .pinf => .pinf
  | .ninf, y => y
  | x, .ninf => x
  | .fin x, .fin y => .fin (max x y)

/-- JS `Math.min` of two numbers (NaN-propagating). -/
noncomputable def jsMin : JSNum → JSNum → JSNum
  | .nan, _ => .nan
  | _, .nan => .nan
  | .ninf, _ => .ninf
  | _, .ninf => .ninf
  | .pinf, y => y
  | x, .pinf => x
  | .fin x, .fin y => .fin (min x y)

/-- JS `Math.pow` (ECMAScript semantics; positive finite bases use the
real power, zero base splits on the exponent's sign, negative finite
bases require an integer exponent, exponent `0` gives `1` even for NaN
base). -/
noncomputable def jsPow (x y : JSNum) : JSNum :=
  match y with
  | .fin ye =>
    if ye = 0 then .fin 1
    else
      match x with
      | .nan => .nan
      | .pinf => if 0 < ye then .pinf else .fin 0
      | .ninf =>
        if 0 < ye then (if (⌊ye⌋ : ℝ) = ye ∧ ⌊ye⌋ % 2 = 1 then .ninf else .pinf)
        else .fin 0
      | .fin xe =>
        if 0 < xe then .fin (xe ^ ye)
        else if xe = 0 then (if 0 < ye then .fin 0 else .pinf)
        else
          if (⌊ye⌋ : ℝ) = ye then .fin (xe ^ ⌊ye⌋)
          else .nan
  | .nan => .nan
  | .pinf =>
    match x with
    | .nan => .nan
    | .pinf => .pinf
    | .ninf => .pinf
    | .fin xe => if |xe| = 1 then .nan else if 1 < |xe| then .pinf else .fin 0
  | .ninf =>
    match x with
    | .nan => .nan
    | .pinf => .fin 0
    | .ninf => .fin 0
    | .fin xe => if |xe| = 1 then .nan else if 1 < |xe| then .fin 0 else .pinf

/-- A 2x2 matrix of JS numbers. -/
structure Mat2J where
  a : JSNum
  b : JSNum
  c : JSNum
  d : JSNum

/-- `getMatrixPower2x2` over the `JSNum` model, mirroring the source
statement by statement (same shape as the exact-real embedding). -/
noncomputable def getMatrixPower2x2JS (a b c d t : JSNum) : Mat2J :=
  let trace := jsAdd a d
  let det := jsSub (jsMul a d) (jsMul b c)
  let delta := jsSub (jsMul trace trace) (jsMul (.fin 4) det)
  let EPSj : JSNum := .fin (1/10^9)
  if jsLtB delta (jsNeg EPSj) then
    let r := jsSqrt det
    let theta := jsAcos (jsMax (.fin (-1)) (jsMin (.fin 1) (jsDiv trace (jsMul (.fin 2) r))))
    let rt := jsPow r t
    let sinTheta := jsSin theta
    if jsLtB (jsAbs sinTheta) EPSj then ⟨.fin 1, .fin 0, .fin 0, .fin 1⟩
    else
      let c1 := jsDiv (jsSin (jsMul (jsSub (.fin 1) t) theta)) sinTheta
      let c2 := jsDiv (jsSin (jsMul t theta)) sinTheta
      let f1 := jsMul rt c1
      let f2 := jsDiv (jsMul rt c2) r
      ⟨jsAdd (jsMul f1 (.fin 1)) (jsMul f2 a), jsAdd (jsMul f1 (.fin 0)) (jsMul f2 b),
       jsAdd (jsMul f1 (.fin 0)) (jsMul f2 c), jsAdd (jsMul f1 (.fin 1)) (jsMul f2 d)⟩
  else
    let sqrtDelta := jsSqrt delta
    let l1 := jsDiv (jsSub trace sqrtDelta) (.fin 2)
    let l2 := jsDiv (jsAdd trace sqrtDelta) (.fin 2)
    if jsLtB (jsAbs (jsSub l1 l2)) EPSj then
      let ltv := jsPow l1 t
      let invL1 := jsDiv (.fin 1) l1
      let Ka := jsSub (jsMul a invL1) (.fin 1)
      let Kb := jsMul b invL1
      let Kc := jsMul c invL1
      let Kd := jsSub (jsMul d invL1) (.fin 1)
      ⟨jsMul ltv (jsAdd (.fin 1) (jsMul t Ka)), jsMul ltv (jsAdd (.fin 0) (jsMul t Kb)),
       jsMul ltv (jsAdd (.fin 0) (jsMul t Kc)), jsMul ltv (jsAdd (.fin 1) (jsMul t Kd))⟩
    else
      let l1t := jsPow l1 t
      let l2t := jsPow l2 t
      let invDiff := jsDiv (.fin 1) (jsSub l2 l1)
      let c1 := jsMul (jsSub (jsMul l1t l2) (jsMul l2t l1)) invDiff
      let c2 := jsMul (jsSub l2t l1t) invDiff
      ⟨jsAdd c1 (jsMul c2 a), jsAdd (.fin 0) (jsMul c2 b),
       jsAdd (.fin 0) (jsMul c2 c), jsAdd c1 (jsMul c2 d)⟩

/-- Exactness precondition for the semigroup law of the fractional matrix
power, per eigenvalue regime of the code's branching: spiral
(discriminant below `-eps`), exactly repeated eigenvalue with positive
trace, or well-separated real eigenvalues (discriminant at least `eps^2`,
so the code takes the distinct branch) with the smaller eigenvalue
positive.  Matrices with a nonpositive real eigenvalue genuinely violate
the law (`Math.pow` of a negative base is NaN in JS; see the
counterexample), and the near-degenerate bands `(-eps, 0)` and
`(0, eps^2)` are excluded because there the code's Jordan approximation
is not exact (and JS produces NaN for negative discriminants). -/
def SemigroupSafe (a b c d : ℝ) : Prop :=
  ((a+d) * (a+d) - 4 * (a*d - b*c) < -EPS) ∨
  ((a+d) * (a+d) - 4 * (a*d - b*c) = 0 ∧ 0 < a + d) ∨
  (EPS^2 ≤ (a+d) * (a+d) - 4 * (a*d - b*c) ∧
    Real.sqrt ((a+d) * (a+d) - 4 * (a*d - b*c)) < a + d)

/-!
Helper lemmas (shared between several claims).
-/

/-- Evaluation of `multiplyMatrix` on two explicit 3x3 matrices. -/
theorem mulM_explicit (a0 a1 a2 a3 a4 a5 a6 a7 a8 b0 b1 b2 b3 b4 b5 b6 b7 b8 : α) :
    multiplyMatrix [a0,a1,a2,a3,a4,a5,a6,a7,a8] [b0,b1,b2,b3,b4,b5,b6,b7,b8] =
    [0 + a0*b0 + a1*b3 + a2*b6, 0 + a0*b1 + a1*b4 + a2*b7, 0 + a0*b2 + a1*b5 + a2*b8,
     0 + a3*b0 + a4*b3 + a5*b6, 0 + a3*b1 + a4*b4 + a5*b7, 0 + a3*b2 + a4*b5 + a5*b8,
     0 + a6*b0 + a7*b3 + a8*b6, 0 + a6*b1 + a7*b4 + a8*b7, 0 + a6*b2 + a7*b5 + a8*b8] := rfl

/-- Any singular solve ends in the all-zero vector, and `computeHomography`
then returns the zero solution with the appended ninth coefficient `1`. -/
theorem hom_singular_zero (w h : α) (q : Quad α)
    (hs : forwardElim 8 (homographyA w h q) (homographyB w h q) = none) :
    solveLinearSystem (homographyA w h q) (homographyB w h q) = List.replicate 8 0 ∧
    computeHomography w h q = [0,0,0,0,0,0,0,0,1] := by
  have hlen : (homographyB w h q).length = 8 := by
    simp [homographyB, homographySystem]
  have h1 : solveLinearSystem (homographyA w h q) (homographyB w h q) =
      List.replicate 8 0 := by
    simp only [solveLinearSystem, hlen, hs]
  refine ⟨h1, ?_⟩
  simp only [computeHomography, h1]
  rfl

/-- On the `1e-11` square, every entry of the first pivot column is below
the `1e-10` tolerance, so the forward elimination aborts at once. -/
theorem tiny_forward_none :
    forwardElim 8
      (homographyA ((1:ℚ)/10^11) (1/10^11) (rectQuad (1/10^11) (1/10^11)))
      (homographyB ((1:ℚ)/10^11) (1/10^11) (rectQuad (1/10^11) (1/10^11))) = none := by
  have hA : homographyA ((1:ℚ)/10^11) (1/10^11) (rectQuad (1/10^11) (1/10^11)) =
      [[0, 0, 1, 0, 0, 0, 0, 0],
       [0, 0, 0, 0, 0, 1, 0, 0],
       [1/10^11, 0, 1, 0, 0, 0, -(1/10^22), 0],
       [0, 0, 0, 1/10^11, 0, 1, 0, 0],
       [1/10^11, 1/10^11, 1, 0, 0, 0, -(1/10^22), -(1/10^22)],
       [0, 0, 0, 1/10^11, 1/10^11, 1, -(1/10^22), -(1/10^22)],
       [0, 1/10^11, 1, 0, 0, 0, 0, 0],
       [0, 0, 0, 0, 1/10^11, 1, 0, -(1/10^22)]] := by
    norm_num [homographyA, homographySystem, rectQuad]
  have hB : homographyB ((1:ℚ)/10^11) (1/10^11) (rectQuad (1/10^11) (1/10^11)) =
      [0, 0, 1/10^11, 0, 1/10^11, 1/10^11, 0, 1/10^11] := by
    norm_num [homographyB, homographySystem, rectQuad]
  have s0 : elimStep 8
      ([[0, 0, 1, 0, 0, 0, 0, 0],
        [0, 0, 0, 0, 0, 1, 0, 0],
        [1/10^11, 0, 1, 0, 0, 0, -(1/10^22), 0],
        [0, 0, 0, 1/10^11, 0, 1, 0, 0],
        [1/10^11, 1/10^11, 1, 0, 0, 0, -(1/10^22), -(1/10^22)],
        [0, 0, 0, 1/10^11, 1/10^11, 1, -(1/10^22), -(1/10^22)],
        [0, 1/10^11, 1, 0, 0, 0, 0, 0],
        [0, 0, 0, 0, 1/10^11, 1, 0, -(1/10^22)]],
       ([0, 0, 1/10^11, 0, 1/10^11, 1/10^11, 0, (1:ℚ)/10^11] : List ℚ)) 0 = none := by
    norm_num [elimStep, pivotScan, eps10, List.range', abs_of_nonneg, abs_zero]
  rw [forwardElim, hA, hB]
  rw [show List.range 8 = [0,1,2,3,4,5,6,7] from rfl]
  rw [List.foldlM_cons, s0]
  rfl

/-- Column-0 step of the rectangle elimination: pivot row 2. -/
theorem rect_step0 (w h : α) (hw : eps10 ≤ w) (hh : eps10 ≤ h) :
    elimStep 8 (rectA0 w h, rectB0 w h) 0 = some (rectA1 w h, rectB1 w h) := by
  have hw0 : (0:α) < w := lt_of_lt_of_le (by norm_num [eps10]) hw
  have hpiv : pivotScan (rectA0 w h) 0 8 = (2, w) := by
    norm_num [pivotScan, rectA0, List.range', abs_zero, abs_of_pos hw0, hw0,
      hw0.not_lt, lt_self_iff_false]
  simp only [elimStep, hpiv]
  rw [if_neg (not_lt.2 hw)]
  simp only [swapRowsFrom, eliminateBelow, rectA0, rectB0, rectA1, rectB1,
    List.range', List.getD_cons_zero, List.getD_cons_succ, List.set]
  norm_num [neg_div, div_self hw0.ne', List.range_succ, List.map_append,
    List.map_cons, List.map_nil, List.getElem?_cons_zero, List.getElem?_cons_succ,
    Option.getD_some, Option.getD_none]

/-- Column-1 step of the rectangle elimination: pivot row 4. -/
theorem rect_step1 (w h : α) (hh : eps10 ≤ h) :
    elimStep 8 (rectA1 w h, rectB1 w h) 1 = some (rectA2 w h, rectB2 w h) := by
  have hh0 : (0:α) < h := lt_of_lt_of_le (by norm_num [eps10]) hh
  have hpiv : pivotScan (rectA1 w h) 1 8 = (4, h) := by
    norm_num [pivotScan, rectA1, List.range', abs_zero, abs_of_pos hh0, hh0,
      hh0.not_lt, lt_self_iff_false]
  simp only [elimStep, hpiv]
  rw [if_neg (not_lt.2 hh)]
  simp only [swapRowsFrom, eliminateBelow, rectA1, rectB1, rectA2, rectB2,
    List.range', List.getD_cons_zero, List.getD_cons_succ, List.set]
  norm_num [neg_div, div_self hh0.ne', List.range_succ, List.map_append,
    List.map_cons, List.map_nil, List.getElem?_cons_zero, List.getElem?_cons_succ,
    Option.getD_some, Option.getD_none]

/-- Column-2 step of the rectangle elimination: pivot row 2 itself. -/
theorem rect_step2 (w h : α) :
    elimStep 8 (rectA2 w h, rectB2 w h) 2 = some (rectA3 w h, rectB3 w h) := by
  have hpiv : pivotScan (rectA2 w h) 2 8 = (2, 1) := by
    norm_num [pivotScan, rectA2, List.range', abs_zero, abs_one, lt_self_iff_false]
  simp only [elimStep, hpiv]
  rw [if_neg (by norm_num [eps10])]
  simp only [swapRowsFrom, eliminateBelow, rectA2, rectB2, rectA3, rectB3,
    List.range', List.getD_cons_zero, List.getD_cons_succ, List.set]
  norm_num [neg_div, List.range_succ, List.map_append,
    List.map_cons, List.map_nil, List.getElem?_cons_zero, List.getElem?_cons_succ,
    Option.getD_some, Option.getD_none]

/-- Column-3 step of the rectangle elimination: pivot row 3 itself. -/
theorem rect_step3 (w h : α) (hw : eps10 ≤ w) :
    elimStep 8 (rectA3 w h, rectB3 w h) 3 = some (rectA4 w h, rectB4 w h) := by
  have hw0 : (0:α) < w := lt_of_lt_of_le (by norm_num [eps10]) hw
  have hpiv : pivotScan (rectA3 w h) 3 8 = (3, w) := by
    norm_num [pivotScan, rectA3, List.range', abs_zero, abs_of_pos hw0, hw0,
      hw0.not_lt, lt_self_iff_false]
  simp only [elimStep, hpiv]
  rw [if_neg (not_lt.2 hw)]
  simp only [swapRowsFrom, eliminateBelow, rectA3, rectB3, rectA4, rectB4,
    List.range', List.getD_cons_zero, List.getD_cons_succ, List.set]
  norm_num [neg_div, div_self hw0.ne', List.range_succ, List.map_append,
    List.map_cons, List.map_nil, List.getElem?_cons_zero, List.getElem?_cons_succ,
    Option.getD_some, Option.getD_none]

/-- Column-4 step of the rectangle elimination: pivot row 5. -/
theorem rect_step4 (w h : α) (hh : eps10 ≤ h) :
    elimStep 8 (rectA4 w h, rectB4 w h) 4 = some (rectA5 w h, rectB5 w h) := by
  have hh0 : (0:α) < h := lt_of_lt_of_le (by norm_num [eps10]) hh
  have hpiv : pivotScan (rectA4 w h) 4 8 = (5, h) := by
    norm_num [pivotScan, rectA4, List.range', abs_zero, abs_of_pos hh0, hh0,
      hh0.not_lt, lt_self_iff_false]
  simp only [elimStep, hpiv]
  rw [if_neg (not_lt.2 hh)]
  simp only [swapRowsFrom, eliminateBelow, rectA4, rectB4, rectA5, rectB5,
    List.range', List.getD_cons_zero, List.getD_cons_succ, List.set]
  norm_num [neg_div, div_self hh0.ne', List.range_succ, List.map_append,
    List.map_cons, List.map_nil, List.getElem?_cons_zero, List.getElem?_cons_succ,
    Option.getD_some, Option.getD_none]

/-- Column-5 step of the rectangle elimination: pivot row 5 itself. -/
theorem rect_step5 (w h : α) :
    elimStep 8 (rectA5 w h, rectB5 w h) 5 = some (rectA6 w h, rectB6 w h) := by
  have hpiv : pivotScan (rectA5 w h) 5 8 = (5, 1) := by
    norm_num [pivotScan, rectA5, List.range', abs_zero, abs_one, lt_self_iff_false]
  simp only [elimStep, hpiv]
  rw [if_neg (by norm_num [eps10])]
  simp only [swapRowsFrom, eliminateBelow, rectA5, rectB5, rectA6, rectB6,
    List.range', List.getD_cons_zero, List.getD_cons_succ, List.set]
  norm_num [neg_div, List.range_succ, List.map_append,
    List.map_cons, List.map_nil, List.getElem?_cons_zero, List.getElem?_cons_succ,
    Option.getD_some, Option.getD_none]

/-- Column-6 step of the rectangle elimination: pivot row 7, swap. -/
theorem rect_step6 (w h : α) (hw : eps10 ≤ w) (hh : eps10 ≤ h)
    (hwh : eps10 ≤ w * h) :
    elimStep 8 (rectA6 w h, rectB6 w h) 6 = some (rectA7 w h, rectB7 w h) := by
  have hw0 : (0:α) < w := lt_of_lt_of_le (by norm_num [eps10]) hw
  have hh0 : (0:α) < h := lt_of_lt_of_le (by norm_num [eps10]) hh
  have hwh0 : (0:α) < w * h := mul_pos hw0 hh0
  have hpiv : pivotScan (rectA6 w h) 6 8 = (7, w * h) := by
    norm_num [pivotScan, rectA6, List.range', abs_zero, abs_of_pos hwh0, hwh0,
      hwh0.not_lt, lt_self_iff_false]
  simp only [elimStep, hpiv]
  rw [if_neg (not_lt.2 hwh)]
  simp only [swapRowsFrom, eliminateBelow, rectA6, rectB6, rectA7, rectB7,
    List.range', List.getD_cons_zero, List.getD_cons_succ, List.set]
  norm_num [neg_div, List.range_succ, List.map_append,
    List.map_cons, List.map_nil, List.getElem?_cons_zero, List.getElem?_cons_succ,
    Option.getD_some, Option.getD_none]

/-- Column-7 step of the rectangle elimination: pivot row 7 itself; the
state is already triangular and unchanged. -/
theorem rect_step7 (w h : α) (hw : eps10 ≤ w) (hh : eps10 ≤ h)
    (hwh : eps10 ≤ w * h) :
    elimStep 8 (rectA7 w h, rectB7 w h) 7 = some (rectA7 w h, rectB7 w h) := by
  have hw0 : (0:α) < w := lt_of_lt_of_le (by norm_num [eps10]) hw
  have hh0 : (0:α) < h := lt_of_lt_of_le (by norm_num [eps10]) hh
  have hhw0 : (0:α) < h * w := mul_pos hh0 hw0
  have hhw : eps10 ≤ h * w := by rwa [mul_comm h w]
  have hpiv : pivotScan (rectA7 w h) 7 8 = (7, h * w) := by
    norm_num [pivotScan, rectA7, List.range', abs_zero, abs_of_pos hhw0]
  simp only [elimStep, hpiv]
  rw [if_neg (not_lt.2 hhw)]
  simp only [swapRowsFrom, eliminateBelow, rectA7, rectB7,
    List.range', List.getD_cons_zero, List.getD_cons_succ, List.set]
  norm_num [neg_div, List.range_succ, List.map_append,
    List.map_cons, List.map_nil, List.getElem?_cons_zero, List.getElem?_cons_succ,
    Option.getD_some, Option.getD_none]

/-- Full forward elimination of the rectangle system. -/
theorem rect_forward (w h : α) (hw : eps10 ≤ w) (hh : eps10 ≤ h)
    (hwh : eps10 ≤ w * h) :
    forwardElim 8 (rectA0 w h) (rectB0 w h) = some (rectA7 w h, rectB7 w h) := by
  have e0 := rect_step0 w h hw hh
  have e1 := rect_step1 w h hh
  have e2 := rect_step2 w h
  have e3 := rect_step3 w h hw
  have e4 := rect_step4 w h hh
  have e5 := rect_step5 w h
  have e6 := rect_step6 w h hw hh hwh
  have e7 := rect_step7 w h hw hh hwh
  simp only [forwardElim, show List.range 8 = [0,1,2,3,4,5,6,7] from rfl,
    List.foldlM_cons, List.foldlM_nil, e0, e1, e2, e3, e4, e5, e6, e7,
    Option.bind_eq_bind, Option.some_bind, Option.bind_some, pure]

/-- Back substitution of the triangular rectangle system produces the
identity coefficients. -/
theorem rect_backsubst (w h : α) (hw : eps10 ≤ w) (hh : eps10 ≤ h) :
    backSubstAux (rectA7 w h) (rectB7 w h) 8 [] = [1,0,0,0,1,0,0,0] := by
  have hw0 : (0:α) < w := lt_of_lt_of_le (by norm_num [eps10]) hw
  have hh0 : (0:α) < h := lt_of_lt_of_le (by norm_num [eps10]) hh
  norm_num [backSubstAux, rectA7, rectB7, List.enumFrom, List.foldl,
    List.getD_cons_zero, List.getD_cons_succ, div_self hw0.ne', div_self hh0.ne']

/-!
Claim theorems.
-/

/-- Claim C1 (corrected).  When the forward elimination detects a
numerically singular system (a pivot of magnitude below `1e-10`), the
solver returns the all-zero solution vector — but `computeHomography` does
NOT substitute the identity: the zero vector is finite, passes the
`isNaN/isFinite` guard, and the function returns `[0,0,0,0,0,0,0,0,1]`
(the zero solution with the appended ninth coefficient). -/
theorem singular_homography_zero_vector (w h : α) (q : Quad α)
    (hs : forwardElim 8 (homographyA w h q) (homographyB w h q) = none) :
    solveLinearSystem (homographyA w h q) (homographyB w h q) = List.replicate 8 0 ∧
    computeHomography w h q = [0,0,0,0,0,0,0,0,1] :=
  hom_singular_zero w h q hs

/-- Witness for C1: the `1e-11` square rectangle gives a singular system. -/
theorem singular_homography_zero_vector_witness :
    solveLinearSystem
        (homographyA ((1:ℚ)/10^11) (1/10^11) (rectQuad (1/10^11) (1/10^11)))
        (homographyB ((1:ℚ)/10^11) (1/10^11) (rectQuad (1/10^11) (1/10^11))) =
      List.replicate 8 0 ∧
    computeHomography ((1:ℚ)/10^11) (1/10^11) (rectQuad (1/10^11) (1/10^11)) =
      [0,0,0,0,0,0,0,0,1] :=
  singular_homography_zero_vector _ _ _ tiny_forward_none

/-- Counterexample for C1 as stated: on a singular system (all first-column
pivot candidates below `1e-10`) `computeHomography` does not return the
identity homography. -/
theorem singular_homography_not_identity_cex :
    forwardElim 8
      (homographyA ((1:ℚ)/10^11) (1/10^11) (rectQuad (1/10^11) (1/10^11)))
      (homographyB ((1:ℚ)/10^11) (1/10^11) (rectQuad (1/10^11) (1/10^11))) = none ∧
    computeHomography ((1:ℚ)/10^11) (1/10^11) (rectQuad (1/10^11) (1/10^11)) ≠
      [1,0,0,0,1,0,0,0,1] := by
  refine ⟨tiny_forward_none, ?_⟩
  rw [(hom_singular_zero _ _ _ tiny_forward_none).2]
  simp

/-- Claim C3 (corrected).  Mapping the `[0,w] x [0,h]` rectangle to itself
yields exactly the identity homography, provided `w`, `h` and `w*h` are at
least the `1e-10` pivot tolerance (so that no Gaussian pivot triggers the
singular fallback).  Without that proviso the claim fails: see the
counterexample with `w = h = 1e-11`. -/
theorem rect_homography_identity (w h : α) (hw : eps10 ≤ w) (hh : eps10 ≤ h)
    (hwh : eps10 ≤ w * h) :
    computeHomography w h (rectQuad w h) = [1,0,0,0,1,0,0,0,1] := by
  have hA : homographyA w h (rectQuad w h) = rectA0 w h := by
    norm_num [homographyA, homographySystem, rectQuad, rectA0]
  have hB : homographyB w h (rectQuad w h) = rectB0 w h := by
    norm_num [homographyB, homographySystem, rectQuad, rectB0]
  have hlen : (rectB0 w h).length = 8 := rfl
  simp only [computeHomography, solveLinearSystem, hA, hB, hlen,
    rect_forward w h hw hh hwh]
  rw [rect_backsubst w h hw hh]
  rfl

/-- Witness for C3: an 800 x 600 rectangle maps to itself by the identity. -/
theorem rect_homography_identity_witness :
    computeHomography (800:ℚ) 600 (rectQuad 800 600) = [1,0,0,0,1,0,0,0,1] :=
  rect_homography_identity 800 600 (by norm_num [eps10]) (by norm_num [eps10])
    (by norm_num [eps10])

/-- Counterexample for C3 as stated (`w > 0` and `h > 0` alone do not
suffice): at `w = h = 1e-11` every pivot candidate of the first column is
below the solver's `1e-10` tolerance, and the result is the zero-solution
fallback rather than the identity. -/
theorem rect_homography_tiny_rect_cex :
    (0:ℚ) < 1/10^11 ∧
    computeHomography ((1:ℚ)/10^11) (1/10^11) (rectQuad (1/10^11) (1/10^11)) ≠
      [1,0,0,0,1,0,0,0,1] := by
  refine ⟨by norm_num, ?_⟩
  rw [(hom_singular_zero _ _ _ tiny_forward_none).2]
  simp

/-- Claim C4 (confirmed).  For a 3x3 matrix with nonzero determinant (the
determinant expression computed by the source), `invertMatrix(M) * M` is
exactly the identity; for determinant exactly zero, `invertMatrix` returns
the identity matrix (and in this exact model no entry can be NaN). -/
theorem invert_matrix_correct (m0 m1 m2 m3 m4 m5 m6 m7 m8 : ℝ) :
    (det3 [m0,m1,m2,m3,m4,m5,m6,m7,m8] ≠ 0 →
      multiplyMatrix (invertMatrix [m0,m1,m2,m3,m4,m5,m6,m7,m8])
        [m0,m1,m2,m3,m4,m5,m6,m7,m8] = [1,0,0,0,1,0,0,0,1]) ∧
    (det3 [m0,m1,m2,m3,m4,m5,m6,m7,m8] = 0 →
      invertMatrix [m0,m1,m2,m3,m4,m5,m6,m7,m8] = [1,0,0,0,1,0,0,0,1]) := by
  constructor
  · intro hdet
    have hd : m0 * (m8 * m4 - m5 * m7) + m1 * (-m8 * m3 + m5 * m6) +
        m2 * (m7 * m3 - m4 * m6) ≠ 0 := by
      simpa [det3, List.getD_cons_succ, List.getD_cons_zero] using hdet
    simp only [invertMatrix, List.getD_cons_succ, List.getD_cons_zero]
    rw [if_neg hd, mulM_explicit]
    generalize hD : m0 * (m8 * m4 - m5 * m7) + m1 * (-m8 * m3 + m5 * m6) +
        m2 * (m7 * m3 - m4 * m6) = D at hd
    simp only [List.cons.injEq, and_true]
    refine ⟨?_, ?_, ?_, ?_, ?_, ?_, ?_, ?_, ?_⟩ <;>
      (field_simp; first | ring1 | linear_combination hD)
  · intro hdet
    have hd : m0 * (m8 * m4 - m5 * m7) + m1 * (-m8 * m3 + m5 * m6) +
        m2 * (m7 * m3 - m4 * m6) = 0 := by
      simpa [det3, List.getD_cons_succ, List.getD_cons_zero] using hdet
    simp only [invertMatrix, List.getD_cons_succ, List.getD_cons_zero]
    rw [if_pos hd]

/-- Witness for C4: a diagonal invertible matrix and a singular matrix. -/
theorem invert_matrix_correct_witness :
    multiplyMatrix (invertMatrix [2,0,0,0,3,0,0,0,(1:ℝ)]) [2,0,0,0,3,0,0,0,1] =
      [1,0,0,0,1,0,0,0,1] ∧
    invertMatrix [1,2,3,4,5,6,7,8,(9:ℝ)] = [1,0,0,0,1,0,0,0,1] :=
  ⟨(invert_matrix_correct 2 0 0 0 3 0 0 0 1).1 (by norm_num [det3]),
   (invert_matrix_correct 1 2 3 4 5 6 7 8 9).2 (by norm_num [det3])⟩

/-- Claim C6 (code bug).  In the 800 x 600 scenario with the centered
half-size quad, the pixel-space quad is `(200,150), (600,150), (600,450),
(200,450)` with true geometric area `120000`; but `getQuadArea` — whose
shoelace formula duplicates the term `p4.y*p1.x` instead of using
`p4.x*p1.y` — computes `150000`, so the loop scale is
`sqrt(480000/150000) = sqrt(16/5) ≈ 1.789`, not the specified `2.0`.
The frame count (60) and inter-frame delay (33 ms) of the constant-speed
export do hold, since the constant-speed duration does not depend on the
scale. -/
theorem export_scenario_code_facts :
    getQuadArea (⟨200,150⟩ : Point ℝ) ⟨600,150⟩ ⟨600,450⟩ ⟨200,450⟩ = 150000 ∧
    loopScale 480000 150000 ≠ 2 ∧
    exportDuration true (loopScale 480000 150000) 1 = 2 ∧
    exportTotalFrames (exportDuration true (loopScale 480000 150000) 1) = 60 ∧
    exportDelayMs = 33 := by
  have hdur : exportDuration true (loopScale 480000 150000) 1 = 2 := by
    norm_num [exportDuration, min_def, max_def]
  refine ⟨?_, ?_, hdur, ?_, ?_⟩
  · norm_num [getQuadArea]
  · intro h
    have h2 : (Real.sqrt (480000 / max 1 150000))^2 = 2^2 := by
      unfold loopScale at h
      rw [h]
    rw [Real.sq_sqrt (by norm_num)] at h2
    norm_num at h2
  · rw [hdur]
    unfold exportTotalFrames
    rw [show ((2:ℝ) * 30) = ((60:ℤ):ℝ) by norm_num, Int.floor_intCast]
    norm_num
  · unfold exportDelayMs
    rw [Int.floor_eq_iff]
    constructor <;> norm_num

/-- Claim C7 (corrected).  The invariant `1 ≤ zoomLevel < loopScale` is
preserved by a live-playback tick in both modes and both directions,
provided the per-tick step is small enough for the single wrap the code
performs: `speed*dt*0.5 ≤ 1` in constant-speed mode, and
`1 + speed*dt ≤ loopScale` in multiplicative mode.  For larger `dt` the
single additive/multiplicative wrap is not enough (see the
counterexample), so the claim's unrestricted `dt ≥ 0` is too strong. -/
theorem zoom_tick_invariant (cs : Bool) (dir : AnimationDirection)
    (speed dt limit z : α)
    (hdir : dir = AnimationDirection.IN ∨ dir = AnimationDirection.OUT)
    (hdt : 0 ≤ dt) (hsp : 0 < speed) (hL : 1 < limit)
    (hz1 : 1 ≤ z) (hz2 : z < limit)
    (hstep1 : cs = true → speed * dt * (1/2) ≤ 1)
    (hstep2 : cs = false → 1 + speed * dt ≤ limit) :
    1 ≤ loopTick cs dir speed dt limit z ∧ loopTick cs dir speed dt limit z < limit := by
  have hΔ : (0:α) < limit - 1 := by linarith
  have hsd : 0 ≤ speed * dt := mul_nonneg hsp.le hdt
  rcases cs with _ | _
  · have hm : (1:α) ≤ 1 + speed * dt := by linarith
    have hm0 : (0:α) < 1 + speed * dt := by linarith
    have hmL : 1 + speed * dt ≤ limit := hstep2 rfl
    rcases hdir with rfl | rfl
    · simp only [loopTick, Bool.false_eq_true, eq_self_iff_true, reduceCtorEq,
        if_true, if_false]
      split_ifs with h
      · constructor
        · rw [le_div_iff₀ (by linarith : (0:α) < limit)]
          linarith
        · rw [div_lt_iff₀ (by linarith : (0:α) < limit)]
          nlinarith
      · push_neg at h
        constructor
        · nlinarith
        · exact h
    · simp only [loopTick, Bool.false_eq_true, eq_self_iff_true, reduceCtorEq,
        if_true, if_false]
      split_ifs with h
      · constructor
        · rw [div_mul_eq_mul_div, le_div_iff₀ hm0]
          nlinarith
        · calc z / (1 + speed * dt) * limit < 1 * limit :=
              mul_lt_mul_of_pos_right h (by linarith)
            _ = limit := one_mul limit
      · push_neg at h
        refine ⟨h, lt_of_le_of_lt (div_le_self (by linarith) hm) hz2⟩
  · have hstep : speed * dt * (1/2) ≤ 1 := hstep1 rfl
    have hstep0 : 0 ≤ speed * dt * (1/2) := by positivity
    have hmul : speed * dt * (1/2) * (limit - 1) ≤ 1 * (limit - 1) :=
      mul_le_mul_of_nonneg_right hstep hΔ.le
    have hmul0 : 0 ≤ speed * dt * (1/2) * (limit - 1) := mul_nonneg hstep0 hΔ.le
    rcases hdir with rfl | rfl
    · simp only [loopTick, eq_self_iff_true, reduceCtorEq, if_true, if_false]
      split_ifs with h
      · constructor <;> linarith
      · push_neg at h
        constructor <;> linarith
    · simp only [loopTick, eq_self_iff_true, reduceCtorEq, if_true, if_false]
      split_ifs with h
      · constructor <;> linarith
      · push_neg at h
        constructor <;> linarith

/-- Witness for C7: a small constant-speed zoom-in tick stays in range. -/
theorem zoom_tick_invariant_witness :
    1 ≤ loopTick true AnimationDirection.IN (1:ℚ) (1/10) 2 (3/2) ∧
    loopTick true AnimationDirection.IN (1:ℚ) (1/10) 2 (3/2) < 2 :=
  zoom_tick_invariant true AnimationDirection.IN 1 (1/10) 2 (3/2)
    (Or.inl rfl) (by norm_num) (by norm_num) (by norm_num) (by norm_num)
    (by norm_num) (fun _ => by norm_num) (fun hcs => absurd hcs (by decide))

/-- Counterexample for C7 as stated: starting from the valid state
`zoomLevel = 1` with `loopScale = 2`, a constant-speed zoom-in tick with
`speed = 4`, `dt = 1` lands exactly on `loopScale` after its single wrap,
violating `zoomLevel < loopScale`. -/
theorem zoom_tick_invariant_cex :
    (0:ℚ) ≤ 1 ∧ (0:ℚ) < 4 ∧ (1:ℚ) < 2 ∧ (1:ℚ) ≤ 1 ∧ (1:ℚ) < 2 ∧
    loopTick true AnimationDirection.IN (4:ℚ) 1 2 1 = 2 ∧
    ¬ (loopTick true AnimationDirection.IN (4:ℚ) 1 2 1 < 2) := by
  norm_num [loopTick]

/-- Claim C8 (corrected).  With a fixed positive image area, the computed
loop scale `sqrt(imageArea / max(1, quadArea))` is strictly antitone in
the quad area — but only on the region `quadArea ≥ 1`, because the
source clamps the denominator by `Math.max(1, areaQuad)`; below one square
pixel the scale saturates (see the counterexample). -/
theorem loop_scale_mono (imageArea A B : ℝ) (hImg : 0 < imageArea)
    (h1 : 1 ≤ B) (hBA : B < A) :
    loopScale imageArea A < loopScale imageArea B := by
  unfold loopScale
  rw [max_eq_right (le_trans h1 hBA.le), max_eq_right h1]
  apply Real.sqrt_lt_sqrt (div_nonneg hImg.le (by linarith))
  exact div_lt_div_of_pos_left hImg (by linarith) hBA

/-- Witness for C8: shrinking the quad area from 150000 to 120000 under a
480000-pixel image strictly increases the loop scale. -/
theorem loop_scale_mono_witness :
    loopScale 480000 150000 < loopScale 480000 120000 :=
  loop_scale_mono 480000 150000 120000 (by norm_num) (by norm_num) (by norm_num)

/-- Counterexample for C8 as stated: shrinking the quad area from `1/2` to
`1/4` does not increase the computed loop scale, because both areas are
clamped to `1`. -/
theorem loop_scale_clamp_cex :
    ¬ (loopScale 480000 (1/2) < loopScale 480000 (1/4)) := by
  unfold loopScale
  rw [max_eq_left (by norm_num), max_eq_left (by norm_num)]
  exact lt_irrefl _

/-- Claim C9 (code bug).  The culling test does not use the centroid of
the projected corner points: because `+` binds tighter than `||` in
`(p1?.x || 0 + p2?.x || 0 + p3?.x || 0) / 3`, the code divides the first
truthy coordinate by 3.  Concretely, with viewport `[0,100] x [0,100]`
and projected points `(3,3), (30000,30000), (30000,30000)`: the true
centroid `(20001, 20001)` is more than 5000 units outside, so per the
specification the cell must be skipped — but the code computes centre
`(1,1)` and draws it. -/
theorem cell_cull_not_centroid :
    cellCulled (⟨0,0,100,100⟩ : CullRect ℚ) (some ⟨3,3⟩) (some ⟨30000,30000⟩)
      (some ⟨30000,30000⟩) = false ∧
    ((3 + 30000 + 30000 : ℚ)/3 > 0 + 100 + 5000) := by
  constructor
  · norm_num [cellCulled, jsChain3, jsChain2, optLt, optGt, Option.map]
  · norm_num

/-- Claim C2 (corrected).  Under the nondegeneracy proviso
`MatrixPowerRegular` (spiral guard does not fire; in the repeated branch
the eigenvalue is nonzero; discriminant not in the JS-NaN window
`[-eps,0)`), `getMatrixPower2x2` is exactly the identity at `t = 0` and
exactly the original matrix at `t = 1`, in all three eigenvalue regimes.
Without the proviso the claim fails: see the nilpotent counterexample. -/
theorem matrix_power_endpoints (a b c d : ℝ) (hreg : MatrixPowerRegular a b c d) :
    getMatrixPower2x2 a b c d 0 = ⟨1,0,0,1⟩ ∧ getMatrixPower2x2 a b c d 1 = ⟨a,b,c,d⟩ := by
  rcases hreg with ⟨hΔ, hsin⟩ | ⟨hΔ0, himp⟩
  · -- complex (spiral) branch
    have hdet0 : 0 < a*d - b*c := by
      have hE : (0:ℝ) < EPS := by norm_num [EPS]
      nlinarith [sq_nonneg (a+d)]
    have hr0 : 0 < Real.sqrt (a*d - b*c) := Real.sqrt_pos.mpr hdet0
    have hsne : Real.sin (Real.arccos (max (-1) (min 1 ((a+d) / (2 * Real.sqrt (a*d - b*c)))))) ≠ 0 := by
      have : (0:ℝ) < |Real.sin (Real.arccos (max (-1) (min 1 ((a+d) / (2 * Real.sqrt (a*d - b*c))))))| :=
        lt_of_lt_of_le (by norm_num [EPS]) hsin
      exact abs_pos.mp this
    constructor
    · simp only [getMatrixPower2x2]
      rw [if_pos hΔ, if_neg (not_lt.2 hsin)]
      simp only [Real.rpow_zero, sub_zero, one_mul, zero_mul, Real.sin_zero, zero_div,
        div_self hsne]
      norm_num
    · simp only [getMatrixPower2x2]
      rw [if_pos hΔ, if_neg (not_lt.2 hsin)]
      simp only [Real.rpow_one, sub_self, zero_mul, one_mul, Real.sin_zero, zero_div,
        div_self hsne]
      simp only [mul_zero, mul_one, zero_mul]
      rw [div_self hr0.ne']
      norm_num
  · -- real branch
    have hnlt : ¬ ((a+d) * (a+d) - 4 * (a*d - b*c) < -EPS) := by
      have hE : (0:ℝ) < EPS := by norm_num [EPS]
      push_neg
      linarith
    have habs : |(a+d - Real.sqrt ((a+d) * (a+d) - 4 * (a*d - b*c))) / 2 -
        (a+d + Real.sqrt ((a+d) * (a+d) - 4 * (a*d - b*c))) / 2| =
        Real.sqrt ((a+d) * (a+d) - 4 * (a*d - b*c)) := by
      rw [show (a+d - Real.sqrt ((a+d) * (a+d) - 4 * (a*d - b*c))) / 2 -
        (a+d + Real.sqrt ((a+d) * (a+d) - 4 * (a*d - b*c))) / 2 =
        -(Real.sqrt ((a+d) * (a+d) - 4 * (a*d - b*c))) by ring]
      rw [abs_neg, abs_of_nonneg (Real.sqrt_nonneg _)]
    by_cases hrep : Real.sqrt ((a+d) * (a+d) - 4 * (a*d - b*c)) < EPS
    · -- repeated eigenvalue branch
      have hl1 : (a+d) - Real.sqrt ((a+d) * (a+d) - 4 * (a*d - b*c)) ≠ 0 := himp hrep
      have hl1' : (a+d - Real.sqrt ((a+d) * (a+d) - 4 * (a*d - b*c))) / 2 ≠ 0 := by
        intro hz
        apply hl1
        field_simp at hz
        linarith [hz]
      constructor
      · simp only [getMatrixPower2x2]
        rw [if_neg hnlt, if_pos (by rw [habs]; exact hrep)]
        simp only [Real.rpow_zero, zero_mul, mul_zero, add_zero, zero_add, mul_one, one_mul]
      · simp only [getMatrixPower2x2]
        rw [if_neg hnlt, if_pos (by rw [habs]; exact hrep)]
        simp only [Real.rpow_one, one_mul]
        simp only [Mat2.mk.injEq]
        generalize (a + d - Real.sqrt ((a+d) * (a+d) - 4 * (a*d - b*c))) / 2 = l1 at hl1'
        refine ⟨?_, ?_, ?_, ?_⟩ <;> (field_simp; try ring1)
    · -- distinct eigenvalue branch
      have hdne : (a+d + Real.sqrt ((a+d) * (a+d) - 4 * (a*d - b*c))) / 2 -
          (a+d - Real.sqrt ((a+d) * (a+d) - 4 * (a*d - b*c))) / 2 ≠ 0 := by
        push_neg at hrep
        have : (0:ℝ) < EPS := by norm_num [EPS]
        have h2 : (0:ℝ) < Real.sqrt ((a+d) * (a+d) - 4 * (a*d - b*c)) := by linarith
        intro hz
        rw [show (a+d + Real.sqrt ((a+d) * (a+d) - 4 * (a*d - b*c))) / 2 -
          (a+d - Real.sqrt ((a+d) * (a+d) - 4 * (a*d - b*c))) / 2 =
          Real.sqrt ((a+d) * (a+d) - 4 * (a*d - b*c)) by ring] at hz
        linarith
      constructor
      · simp only [getMatrixPower2x2]
        rw [if_neg hnlt, if_neg (by rw [habs]; push_neg at hrep ⊢; exact hrep)]
        simp only [Real.rpow_zero, one_mul, mul_one, Mat2.mk.injEq]
        generalize hg1 : (a + d - Real.sqrt ((a+d) * (a+d) - 4 * (a*d - b*c))) / 2 = l1 at hdne
        generalize hg2 : (a + d + Real.sqrt ((a+d) * (a+d) - 4 * (a*d - b*c))) / 2 = l2 at hdne
        refine ⟨?_, ?_, ?_, ?_⟩ <;> (field_simp; try ring1)
      · simp only [getMatrixPower2x2]
        rw [if_neg hnlt, if_neg (by rw [habs]; push_neg at hrep ⊢; exact hrep)]
        simp only [Real.rpow_one, Mat2.mk.injEq]
        generalize hg1 : (a + d - Real.sqrt ((a+d) * (a+d) - 4 * (a*d - b*c))) / 2 = l1 at hdne
        generalize hg2 : (a + d + Real.sqrt ((a+d) * (a+d) - 4 * (a*d - b*c))) / 2 = l2 at hdne
        refine ⟨?_, ?_, ?_, ?_⟩ <;> (field_simp; try ring1)

/-- Counterexample for C2 as stated: the nilpotent matrix `[[0,1],[0,0]]`
(repeated eigenvalue 0) gives the zero matrix at `t = 1` (in JS it gives a
NaN matrix), not the original matrix. -/
theorem matrix_power_endpoint_one_cex :
    getMatrixPower2x2 0 1 0 0 1 = ⟨0,0,0,0⟩ ∧ (⟨0,0,0,0⟩ : Mat2) ≠ ⟨0,1,0,0⟩ := by
  constructor
  · simp only [getMatrixPower2x2]
    rw [if_neg (by norm_num [EPS]), if_pos (by norm_num [EPS, Real.sqrt_zero])]
    norm_num [Real.rpow_one, Real.sqrt_zero]
  · intro hco
    have hb := congrArg Mat2.b hco
    norm_num at hb

/-- Witness for C2: the stretch matrix `[[2,0],[0,0.5]]` (distinct real
eigenvalues) satisfies the proviso and lands exactly on the keyframes. -/
theorem matrix_power_endpoints_witness :
    getMatrixPower2x2 2 0 0 (1/2) 0 = ⟨1,0,0,1⟩ ∧
    getMatrixPower2x2 2 0 0 (1/2) 1 = ⟨2,0,0,1/2⟩ := by
  refine matrix_power_endpoints 2 0 0 (1/2) (Or.inr ⟨by norm_num, ?_⟩)
  have hs : Real.sqrt ((2 + 1/2) * (2 + 1/2) - 4 * (2 * (1/2) - 0 * 0)) = 3/2 := by
    rw [show ((2 + 1/2) * (2 + 1/2) - 4 * (2 * (1/2) - 0 * 0) : ℝ) = (3/2)^2 by norm_num,
      Real.sqrt_sq (by norm_num)]
  rw [hs]
  intro hlt
  norm_num [EPS] at hlt

set_option maxHeartbeats 1000000 in
/-- Semigroup law of the fractional power in the exactly-repeated
eigenvalue case with positive trace. -/
theorem semigroup_repeated (a b c d s t : ℝ)
    (hΔ : (a+d) * (a+d) - 4 * (a*d - b*c) = 0) (htr : 0 < a + d) :
    mul2 (getMatrixPower2x2 a b c d s) (getMatrixPower2x2 a b c d t) =
      getMatrixPower2x2 a b c d (s+t) := by
  have hl1 : (0:ℝ) < (a + d - 0) / 2 := by linarith
  have hcond1 : ¬ ((0:ℝ) < -EPS) := by norm_num [EPS]
  have hcond2 : |(a + d - 0) / 2 - (a + d + 0) / 2| < EPS := by norm_num [EPS]
  simp only [getMatrixPower2x2, hΔ, Real.sqrt_zero, if_neg hcond1, if_pos hcond2]
  have hpw : ∀ u v : ℝ, ((a + d - 0) / 2) ^ (u + v) =
      ((a + d - 0) / 2) ^ u * ((a + d - 0) / 2) ^ v := fun u v => Real.rpow_add hl1 u v
  have hl1ne : (a + d - 0) / 2 ≠ 0 := hl1.ne'
  have hKsum : (a * (1 / ((a + d - 0) / 2)) - 1) + (d * (1 / ((a + d - 0) / 2)) - 1) = 0 := by
    field_simp
    ring
  have hKa2 : (a * (1 / ((a + d - 0) / 2)) - 1) * (a * (1 / ((a + d - 0) / 2)) - 1) +
      (b * (1 / ((a + d - 0) / 2))) * (c * (1 / ((a + d - 0) / 2))) = 0 := by
    field_simp
    linear_combination hΔ
  have hKd2 : (d * (1 / ((a + d - 0) / 2)) - 1) * (d * (1 / ((a + d - 0) / 2)) - 1) +
      (b * (1 / ((a + d - 0) / 2))) * (c * (1 / ((a + d - 0) / 2))) = 0 := by
    field_simp
    linear_combination hΔ
  simp only [mul2, Mat2.mk.injEq, hpw]
  generalize (a * (1 / ((a + d - 0) / 2)) - 1) = Ka at hKsum hKa2
  generalize (b * (1 / ((a + d - 0) / 2))) = Kb at hKa2 hKd2
  generalize (c * (1 / ((a + d - 0) / 2))) = Kc at hKa2 hKd2
  generalize (d * (1 / ((a + d - 0) / 2)) - 1) = Kd at hKsum hKd2
  generalize ((a + d - 0) / 2 : ℝ) ^ s = P
  generalize ((a + d - 0) / 2 : ℝ) ^ t = Q
  refine ⟨?_, ?_, ?_, ?_⟩
  · linear_combination (P * Q * s * t) * hKa2
  · linear_combination (P * Q * s * t * Kb) * hKsum
  · linear_combination (P * Q * s * t * Kc) * hKsum
  · linear_combination (P * Q * s * t) * hKd2

/-- Algebra of the two-point eigenvalue-interpolation coefficients:
product rule for the `c1`/`c2` pairs of the distinct-eigenvalue branch. -/
theorem interp_coef_mul (l1 l2 A B C D dlt tr : ℝ) (hne : l2 - l1 ≠ 0)
    (hsum : l1 + l2 = tr) (hprod : l1 * l2 = dlt) :
    ((A * l2 - B * l1) * (1/(l2 - l1))) * ((C * l2 - D * l1) * (1/(l2 - l1)))
      - dlt * (((B - A) * (1/(l2 - l1))) * ((D - C) * (1/(l2 - l1)))) =
    (A * C * l2 - B * D * l1) * (1/(l2 - l1)) ∧
    ((A * l2 - B * l1) * (1/(l2 - l1))) * ((D - C) * (1/(l2 - l1)))
      + ((B - A) * (1/(l2 - l1))) * ((C * l2 - D * l1) * (1/(l2 - l1)))
      + tr * (((B - A) * (1/(l2 - l1))) * ((D - C) * (1/(l2 - l1)))) =
    (B * D - A * C) * (1/(l2 - l1)) := by
  constructor
  · rw [← hprod]
    field_simp
    ring
  · rw [← hsum]
    field_simp
    ring



set_option maxHeartbeats 1000000 in
/-- Semigroup law of the fractional power in the distinct-positive
eigenvalue case. -/
theorem semigroup_distinct (a b c d s t : ℝ)
    (hΔ : EPS^2 ≤ (a+d) * (a+d) - 4 * (a*d - b*c))
    (hl1 : Real.sqrt ((a+d) * (a+d) - 4 * (a*d - b*c)) < a + d) :
    mul2 (getMatrixPower2x2 a b c d s) (getMatrixPower2x2 a b c d t) =
      getMatrixPower2x2 a b c d (s+t) := by
  have hE : (0:ℝ) < EPS := by norm_num [EPS]
  have h0le : (0:ℝ) ≤ (a+d) * (a+d) - 4 * (a*d - b*c) := le_trans (by positivity) hΔ
  have hs2 : Real.sqrt ((a+d) * (a+d) - 4 * (a*d - b*c)) ^ 2 =
      (a+d) * (a+d) - 4 * (a*d - b*c) := Real.sq_sqrt h0le
  have hsE : EPS ≤ Real.sqrt ((a+d) * (a+d) - 4 * (a*d - b*c)) := by
    rw [show EPS = Real.sqrt (EPS^2) from (Real.sqrt_sq hE.le).symm]
    exact Real.sqrt_le_sqrt hΔ
  have hσ0 : (0:ℝ) ≤ Real.sqrt ((a+d) * (a+d) - 4 * (a*d - b*c)) := Real.sqrt_nonneg _
  have hcond1 : ¬ ((a+d) * (a+d) - 4 * (a*d - b*c) < -EPS) := by
    push_neg
    nlinarith
  have habs : |(a + d - Real.sqrt ((a+d) * (a+d) - 4 * (a*d - b*c))) / 2 -
      (a + d + Real.sqrt ((a+d) * (a+d) - 4 * (a*d - b*c))) / 2| =
      Real.sqrt ((a+d) * (a+d) - 4 * (a*d - b*c)) := by
    rw [show (a + d - Real.sqrt ((a+d) * (a+d) - 4 * (a*d - b*c))) / 2 -
      (a + d + Real.sqrt ((a+d) * (a+d) - 4 * (a*d - b*c))) / 2 =
      -(Real.sqrt ((a+d) * (a+d) - 4 * (a*d - b*c))) by ring]
    rw [abs_neg, abs_of_nonneg hσ0]
  have hcond2 : ¬ (|(a + d - Real.sqrt ((a+d) * (a+d) - 4 * (a*d - b*c))) / 2 -
      (a + d + Real.sqrt ((a+d) * (a+d) - 4 * (a*d - b*c))) / 2| < EPS) := by
    rw [habs]
    push_neg
    exact hsE
  have hl1p : (0:ℝ) < (a + d - Real.sqrt ((a+d) * (a+d) - 4 * (a*d - b*c))) / 2 := by
    linarith
  have hl2p : (0:ℝ) < (a + d + Real.sqrt ((a+d) * (a+d) - 4 * (a*d - b*c))) / 2 := by
    nlinarith
  have hne : (a + d + Real.sqrt ((a+d) * (a+d) - 4 * (a*d - b*c))) / 2 -
      (a + d - Real.sqrt ((a+d) * (a+d) - 4 * (a*d - b*c))) / 2 ≠ 0 := by
    intro hz
    rw [show (a + d + Real.sqrt ((a+d) * (a+d) - 4 * (a*d - b*c))) / 2 -
      (a + d - Real.sqrt ((a+d) * (a+d) - 4 * (a*d - b*c))) / 2 =
      Real.sqrt ((a+d) * (a+d) - 4 * (a*d - b*c)) by ring] at hz
    rw [hz] at hsE
    linarith
  have hsum : (a + d - Real.sqrt ((a+d) * (a+d) - 4 * (a*d - b*c))) / 2 +
      (a + d + Real.sqrt ((a+d) * (a+d) - 4 * (a*d - b*c))) / 2 = a + d := by
    ring
  have hprod : ((a + d - Real.sqrt ((a+d) * (a+d) - 4 * (a*d - b*c))) / 2) *
      ((a + d + Real.sqrt ((a+d) * (a+d) - 4 * (a*d - b*c))) / 2) = a*d - b*c := by
    linear_combination (-(1:ℝ)/4) * hs2
  obtain ⟨T1, T2⟩ := interp_coef_mul
    ((a + d - Real.sqrt ((a+d) * (a+d) - 4 * (a*d - b*c))) / 2)
    ((a + d + Real.sqrt ((a+d) * (a+d) - 4 * (a*d - b*c))) / 2)
    (((a + d - Real.sqrt ((a+d) * (a+d) - 4 * (a*d - b*c))) / 2) ^ s)
    (((a + d + Real.sqrt ((a+d) * (a+d) - 4 * (a*d - b*c))) / 2) ^ s)
    (((a + d - Real.sqrt ((a+d) * (a+d) - 4 * (a*d - b*c))) / 2) ^ t)
    (((a + d + Real.sqrt ((a+d) * (a+d) - 4 * (a*d - b*c))) / 2) ^ t)
    (a*d - b*c) (a+d) hne hsum hprod
  simp only [getMatrixPower2x2, if_neg hcond1, if_neg hcond2]
  simp only [Real.rpow_add hl1p s t, Real.rpow_add hl2p s t]
  simp only [mul2, Mat2.mk.injEq]
  refine ⟨?_, ?_, ?_, ?_⟩
  · linear_combination T1 + a * T2
  · linear_combination b * T2
  · linear_combination c * T2
  · linear_combination T1 + d * T2

/-- Product rule for the spiral-branch coefficient pairs `f1`/`f2`. -/
theorem spiral_coef_mul (r S K P1 P2 P3 Q1 Q2 Q3 Rs Rt dlt tr : ℝ)
    (hr : r ≠ 0) (hS : S ≠ 0)
    (hdet : dlt = r^2) (htr : tr = 2 * r * K)
    (TI1 : P1 * P2 - Q1 * Q2 = S * P3)
    (TI2 : P1 * Q2 + Q1 * P2 + 2 * K * (Q1 * Q2) = S * Q3) :
    (Rs * (P1/S)) * (Rt * (P2/S)) - dlt * ((Rs * (Q1/S) / r) * (Rt * (Q2/S) / r)) =
      Rs * Rt * (P3/S) ∧
    (Rs * (P1/S)) * (Rt * (Q2/S) / r) + (Rs * (Q1/S) / r) * (Rt * (P2/S)) +
      tr * ((Rs * (Q1/S) / r) * (Rt * (Q2/S) / r)) = Rs * Rt * (Q3/S) / r := by
  subst hdet htr
  constructor
  · field_simp
    linear_combination (Rs * Rt * S^3 * r^2) * TI1
  · field_simp
    linear_combination (Rs * Rt * S^5 * r^4) * TI2

set_option maxHeartbeats 1000000 in
/-- Semigroup law of the fractional power in the complex-eigenvalue
(spiral) case, including the degenerate `|sin theta| < eps` guard. -/
theorem semigroup_complex (a b c d s t : ℝ)
    (hΔ : (a+d) * (a+d) - 4 * (a*d - b*c) < -EPS) :
    mul2 (getMatrixPower2x2 a b c d s) (getMatrixPower2x2 a b c d t) =
      getMatrixPower2x2 a b c d (s+t) := by
  have hE : (0:ℝ) < EPS := by norm_num [EPS]
  have hdet0 : 0 < a*d - b*c := by nlinarith [sq_nonneg (a+d)]
  have hr0 : 0 < Real.sqrt (a*d - b*c) := Real.sqrt_pos.mpr hdet0
  have hr2 : Real.sqrt (a*d - b*c) ^ 2 = a*d - b*c := Real.sq_sqrt hdet0.le
  have hxle : (a+d) / (2 * Real.sqrt (a*d - b*c)) ≤ 1 := by
    rw [div_le_one (by positivity)]
    nlinarith [hr2]
  have hxge : (-1:ℝ) ≤ (a+d) / (2 * Real.sqrt (a*d - b*c)) := by
    rw [le_div_iff₀ (by positivity)]
    nlinarith [hr2]
  have hclamp : max (-1) (min 1 ((a+d) / (2 * Real.sqrt (a*d - b*c)))) =
      (a+d) / (2 * Real.sqrt (a*d - b*c)) := by
    rw [min_eq_right hxle, max_eq_right hxge]
  have hcos : Real.cos (Real.arccos ((a+d) / (2 * Real.sqrt (a*d - b*c)))) =
      (a+d) / (2 * Real.sqrt (a*d - b*c)) := Real.cos_arccos hxge hxle
  by_cases hg : |Real.sin (Real.arccos ((a+d) / (2 * Real.sqrt (a*d - b*c))))| < EPS
  · simp only [getMatrixPower2x2, if_pos hΔ, hclamp, if_pos hg]
    simp only [mul2, Mat2.mk.injEq]
    norm_num
  · have hSne : Real.sin (Real.arccos ((a+d) / (2 * Real.sqrt (a*d - b*c)))) ≠ 0 := by
      push_neg at hg
      intro hz
      rw [hz] at hg
      simp at hg
      linarith
    have hτ : a + d = 2 * Real.sqrt (a*d - b*c) *
        Real.cos (Real.arccos ((a+d) / (2 * Real.sqrt (a*d - b*c)))) := by
      rw [hcos]
      field_simp
    have TI1 : Real.sin ((1-s) * Real.arccos ((a+d) / (2 * Real.sqrt (a*d - b*c)))) *
        Real.sin ((1-t) * Real.arccos ((a+d) / (2 * Real.sqrt (a*d - b*c)))) -
        Real.sin (s * Real.arccos ((a+d) / (2 * Real.sqrt (a*d - b*c)))) *
        Real.sin (t * Real.arccos ((a+d) / (2 * Real.sqrt (a*d - b*c)))) =
        Real.sin (Real.arccos ((a+d) / (2 * Real.sqrt (a*d - b*c)))) *
        Real.sin ((1-(s+t)) * Real.arccos ((a+d) / (2 * Real.sqrt (a*d - b*c)))) := by
      generalize Real.arccos ((a+d) / (2 * Real.sqrt (a*d - b*c))) = x
      rw [show (1-s) * x = x - s*x by ring, show (1-t) * x = x - t*x by ring,
        show (1-(s+t)) * x = x - (s*x + t*x) by ring,
        Real.sin_sub, Real.sin_sub, Real.sin_sub, Real.sin_add, Real.cos_add]
      linear_combination (Real.sin (s*x) * Real.sin (t*x)) * (Real.sin_sq_add_cos_sq x)
    have TI2 : Real.sin ((1-s) * Real.arccos ((a+d) / (2 * Real.sqrt (a*d - b*c)))) *
        Real.sin (t * Real.arccos ((a+d) / (2 * Real.sqrt (a*d - b*c)))) +
        Real.sin (s * Real.arccos ((a+d) / (2 * Real.sqrt (a*d - b*c)))) *
        Real.sin ((1-t) * Real.arccos ((a+d) / (2 * Real.sqrt (a*d - b*c)))) +
        2 * Real.cos (Real.arccos ((a+d) / (2 * Real.sqrt (a*d - b*c)))) *
        (Real.sin (s * Real.arccos ((a+d) / (2 * Real.sqrt (a*d - b*c)))) *
         Real.sin (t * Real.arccos ((a+d) / (2 * Real.sqrt (a*d - b*c))))) =
        Real.sin (Real.arccos ((a+d) / (2 * Real.sqrt (a*d - b*c)))) *
        Real.sin ((s+t) * Real.arccos ((a+d) / (2 * Real.sqrt (a*d - b*c)))) := by
      generalize Real.arccos ((a+d) / (2 * Real.sqrt (a*d - b*c))) = x
      rw [show (1-s) * x = x - s*x by ring, show (1-t) * x = x - t*x by ring,
        show (s+t) * x = s*x + t*x by ring,
        Real.sin_sub, Real.sin_sub, Real.sin_add]
      ring
    obtain ⟨T1, T2⟩ := spiral_coef_mul (Real.sqrt (a*d - b*c))
      (Real.sin (Real.arccos ((a+d) / (2 * Real.sqrt (a*d - b*c)))))
      (Real.cos (Real.arccos ((a+d) / (2 * Real.sqrt (a*d - b*c)))))
      (Real.sin ((1-s) * Real.arccos ((a+d) / (2 * Real.sqrt (a*d - b*c)))))
      (Real.sin ((1-t) * Real.arccos ((a+d) / (2 * Real.sqrt (a*d - b*c)))))
      (Real.sin ((1-(s+t)) * Real.arccos ((a+d) / (2 * Real.sqrt (a*d - b*c)))))
      (Real.sin (s * Real.arccos ((a+d) / (2 * Real.sqrt (a*d - b*c)))))
      (Real.sin (t * Real.arccos ((a+d) / (2 * Real.sqrt (a*d - b*c)))))
      (Real.sin ((s+t) * Real.arccos ((a+d) / (2 * Real.sqrt (a*d - b*c)))))
      (Real.sqrt (a*d - b*c) ^ s) (Real.sqrt (a*d - b*c) ^ t)
      (a*d - b*c) (a+d) hr0.ne' hSne hr2.symm hτ TI1 TI2
    simp only [getMatrixPower2x2, if_pos hΔ, hclamp, if_neg hg]
    simp only [Real.rpow_add hr0 s t]
    simp only [mul2, Mat2.mk.injEq]
    refine ⟨?_, ?_, ?_, ?_⟩
    · linear_combination T1 + a * T2
    · linear_combination b * T2
    · linear_combination c * T2
    · linear_combination T1 + d * T2

/-- Claim C5 (corrected).  Under `SemigroupSafe` — which holds in
particular for the spiral case `a=1.1, b=-0.3, c=0.3, d=1.1` and the
stretch case `a=2, b=0, c=0, d=0.5` — the exact semigroup law
`power(M,s) * power(M,t) = power(M,s+t)` holds for ALL real exponents
`s, t`.  For matrices with a negative eigenvalue it fails (see the
counterexample `diag(2,-1)` at `s = t = 1/2`). -/
theorem matrix_power_semigroup (a b c d s t : ℝ) (hsafe : SemigroupSafe a b c d) :
    mul2 (getMatrixPower2x2 a b c d s) (getMatrixPower2x2 a b c d t) =
      getMatrixPower2x2 a b c d (s+t) := by
  rcases hsafe with h | ⟨h1, h2⟩ | ⟨h1, h2⟩
  · exact semigroup_complex a b c d s t h
  · exact semigroup_repeated a b c d s t h1 h2
  · exact semigroup_distinct a b c d s t h1 h2

/-- Witness for C5: the spiral case named by the spec, at `s = 1/3`,
`t = 1/4`. -/
theorem matrix_power_semigroup_witness :
    mul2 (getMatrixPower2x2 (11/10) (-3/10) (3/10) (11/10) (1/3))
        (getMatrixPower2x2 (11/10) (-3/10) (3/10) (11/10) (1/4)) =
      getMatrixPower2x2 (11/10) (-3/10) (3/10) (11/10) (1/3 + 1/4) :=
  matrix_power_semigroup (11/10) (-3/10) (3/10) (11/10) (1/3) (1/4)
    (Or.inl (by norm_num [EPS]))

/-- Counterexample for C5 as stated (every matrix, small `s,t`): for
`M = diag(2,-1)` and `s = t = 1/2`, the model gives
`power(M,1/2)^2 = diag(2,0)` but `power(M,1) = diag(2,-1)` (in JS,
`Math.pow(-1, 0.5)` is NaN and the law fails likewise). -/
theorem matrix_power_semigroup_cex :
    mul2 (getMatrixPower2x2 2 0 0 (-1) (1/2)) (getMatrixPower2x2 2 0 0 (-1) (1/2)) ≠
      getMatrixPower2x2 2 0 0 (-1) (1/2 + 1/2) := by
  have h9 : Real.sqrt 9 = 3 := by
    rw [show (9:ℝ) = 3^2 by norm_num, Real.sqrt_sq (by norm_num : (0:ℝ) ≤ 3)]
  have hneg : ((2:ℝ) + -1 - 3) / 2 = -1 := by norm_num
  have hposl2 : ((2:ℝ) + -1 + 3) / 2 = 2 := by norm_num
  have hrneg : ((-1:ℝ)) ^ ((1:ℝ)/2) = 0 := by
    rw [Real.rpow_def_of_neg (by norm_num : ((-1):ℝ) < 0)]
    rw [show ((-1):ℝ) = -(1:ℝ) by norm_num, Real.log_neg_eq_log, Real.log_one]
    rw [show ((1:ℝ)/2) * Real.pi = Real.pi/2 by ring, Real.cos_pi_div_two]
    norm_num
  have hhalf : getMatrixPower2x2 2 0 0 (-1) (1/2) = ⟨(2:ℝ) ^ ((1:ℝ)/2), 0, 0, 0⟩ := by
    simp only [getMatrixPower2x2]
    rw [show ((2:ℝ) + -1) * (2 + -1) - 4 * (2 * -1 - 0 * 0) = 9 by norm_num]
    rw [if_neg (by norm_num [EPS] : ¬ ((9:ℝ) < -EPS)), h9]
    rw [if_neg (by norm_num [EPS] : ¬ (|((2:ℝ) + -1 - 3) / 2 - ((2:ℝ) + -1 + 3) / 2| < EPS))]
    rw [hneg, hposl2, hrneg]
    simp only [Mat2.mk.injEq]
    refine ⟨by ring, by ring, by ring, by ring⟩
  have hone : getMatrixPower2x2 2 0 0 (-1) (1/2 + 1/2) = ⟨2, 0, 0, -1⟩ := by
    simp only [getMatrixPower2x2]
    rw [show ((2:ℝ) + -1) * (2 + -1) - 4 * (2 * -1 - 0 * 0) = 9 by norm_num]
    rw [if_neg (by norm_num [EPS] : ¬ ((9:ℝ) < -EPS)), h9]
    rw [if_neg (by norm_num [EPS] : ¬ (|((2:ℝ) + -1 - 3) / 2 - ((2:ℝ) + -1 + 3) / 2| < EPS))]
    rw [hneg, hposl2]
    rw [show ((1:ℝ)/2 + 1/2) = 1 by norm_num, Real.rpow_one, Real.rpow_one]
    simp only [Mat2.mk.injEq]
    refine ⟨by ring, by ring, by ring, by ring⟩
  rw [hhalf, hone]
  intro hco
  have hd := congrArg Mat2.d hco
  simp only [mul2] at hd
  norm_num at hd

/-- Diagonal entries of the repeated branch at a zero eigenvalue are NaN:
the zero `l1^t` multiplies a non-finite value. -/
theorem entryA_nan (x t : ℝ) (ht : 0 < t) :
    jsMul (.fin 0) (jsAdd (.fin 1) (jsMul (.fin t) (jsSub (jsMul (.fin x) .pinf) (.fin 1)))) = .nan := by
  rcases lt_trichotomy x 0 with h | h | h
  · simp [jsMul, jsAdd, jsSub, jsNeg, h.ne, h.not_lt, ht.ne', ht]
  · subst h
    simp [jsMul, jsAdd, jsSub, jsNeg]
  · simp [jsMul, jsAdd, jsSub, jsNeg, h.ne', h, ht.ne', ht]

/-- Off-diagonal entries of the repeated branch at a zero eigenvalue are
NaN. -/
theorem entryB_nan (x t : ℝ) (ht : 0 < t) :
    jsMul (.fin 0) (jsAdd (.fin 0) (jsMul (.fin t) (jsMul (.fin x) .pinf))) = .nan := by
  rcases lt_trichotomy x 0 with h | h | h
  · simp [jsMul, jsAdd, jsNeg, h.ne, h.not_lt, ht.ne', ht]
  · subst h
    simp [jsMul, jsAdd]
  · simp [jsMul, jsAdd, h.ne', h, ht.ne', ht]

set_option maxHeartbeats 1000000 in
/-- Claim C10 (confirmed).  For every nilpotent matrix (trace and
determinant zero, e.g. `a=0, b=1, c=0, d=0`) and every `0 < t < 1`, the
repeated-eigenvalue branch of `getMatrixPower2x2` divides by the zero
eigenvalue with no guard: `1/l1` is `+Infinity`, and every entry of the
returned matrix is NaN under IEEE semantics — the identity-substitution
policy is not applied inside this function. -/
theorem power_nilpotent_nan (a b c d t : ℝ) (htr : a + d = 0)
    (hdet : a * d - b * c = 0) (ht0 : 0 < t) (ht1 : t < 1) :
    getMatrixPower2x2JS (.fin a) (.fin b) (.fin c) (.fin d) (.fin t) =
      ⟨.nan, .nan, .nan, .nan⟩ := by
  have h1 : jsAdd (JSNum.fin a) (JSNum.fin d) = JSNum.fin 0 := by
    simp [jsAdd, htr]
  have h2 : jsSub (jsMul (JSNum.fin a) (JSNum.fin d)) (jsMul (JSNum.fin b) (JSNum.fin c)) =
      JSNum.fin 0 := by
    simp [jsSub, jsMul, jsAdd, jsNeg]
    linarith
  have h3 : jsSub (jsMul (JSNum.fin 0) (JSNum.fin 0)) (jsMul (JSNum.fin 4) (JSNum.fin 0)) =
      JSNum.fin 0 := by
    simp [jsSub, jsMul, jsAdd, jsNeg]
  have h4 : jsLtB (JSNum.fin 0) (jsNeg (JSNum.fin (1/10^9))) = false := by
    simp [jsLtB, jsNeg]
  have h5 : jsSqrt (JSNum.fin 0) = JSNum.fin 0 := by
    simp [jsSqrt]
  have h6 : jsDiv (jsSub (JSNum.fin 0) (JSNum.fin 0)) (JSNum.fin 2) = JSNum.fin 0 := by
    simp [jsDiv, jsSub, jsAdd, jsNeg]
  have h7 : jsDiv (jsAdd (JSNum.fin 0) (JSNum.fin 0)) (JSNum.fin 2) = JSNum.fin 0 := by
    simp [jsDiv, jsAdd]
  have h8 : jsLtB (jsAbs (jsSub (JSNum.fin 0) (JSNum.fin 0))) (JSNum.fin (1/10^9)) = true := by
    simp [jsLtB, jsAbs, jsSub, jsAdd, jsNeg]
  have h9 : jsPow (JSNum.fin 0) (JSNum.fin t) = JSNum.fin 0 := by
    simp [jsPow, ht0.ne', ht0, lt_irrefl]
  have h10 : jsDiv (JSNum.fin 1) (JSNum.fin 0) = JSNum.pinf := by
    norm_num [jsDiv]
  simp only [getMatrixPower2x2JS, h1, h2, h3, h4, h5, h6, h7, h8, h9, h10,
    Bool.false_eq_true, if_false, if_true]
  rw [entryA_nan a t ht0, entryB_nan b t ht0, entryB_nan c t ht0, entryA_nan d t ht0]

/-- Witness for C10: the spec's example nilpotent matrix at `t = 1/2`. -/
theorem power_nilpotent_nan_witness :
    getMatrixPower2x2JS (.fin 0) (.fin 1) (.fin 0) (.fin 0) (.fin (1/2)) =
      ⟨.nan, .nan, .nan, .nan⟩ :=
  power_nilpotent_nan 0 1 0 0 (1/2) (by norm_num) (by norm_num) (by norm_num) (by norm_num)

end Droste
